import Mathlib

/-!
Verification of the monolaunch CLI scaffolder (repository tao101/monolaunch).

This file shallowly embeds the configuration-resolution / orchestration
pipeline of the CLI (`dist/index.js`, the current revision of the entry
point) and the provisioning step library (`src/generators.ts` and the
current revision of `src/utils.ts`), and proves/refutes the specification
claims about it.

Modelling conventions:
* Pure text processing (the `config.toml` patcher, the migration-file
  lookup) is embedded at the level of `List Char` / `String` functions
  translated from the JavaScript string/regex operations they implement.
* Side-effecting code is embedded as a function from an explicit
  environment (`World`: which subprocess commands succeed, which paths
  exist, what the migrations directory lists) to a trace of events
  (`Ev`: prompts rendered, commands spawned, files written/deleted, the
  directory-existence check, ...) plus an outcome.  `existsSync` probes
  of files produced by external tools are modelled as a read-only oracle
  on the pre-state.
* Subprocess command lines are represented by the enumeration `Cmd`,
  one constructor per distinct command string in the source (the exact
  string is recorded in each constructor's doc comment).
-/

/-- POSIX `path.join` of two segments, as used by `join(a, b)` in the source. -/
def joinP (a b : String) : String := a ++ "/" ++ b

/-- `leadsWith pat s` is true iff `pat` is a prefix of `s` (character-exact). -/
def leadsWith : List Char → List Char → Bool
  | [], _ => true
  | _ :: _, [] => false
  | p :: ps, s :: ss => if p = s then leadsWith ps ss else false

/-- Leftmost occurrence of `pat` inside `s`:
`splitFirst pat s = some (pre, post)` with `s = pre ++ pat ++ post`, and the
occurrence is the leftmost one.  This is the Lean counterpart of the
occurrence search performed by JavaScript `String.replace` with a pattern
starting with the literal `pat`, and of `String.includes(pat)`. -/
def splitFirst (pat : List Char) : List Char → Option (List Char × List Char)
  | [] => if leadsWith pat [] then some ([], []) else none
  | c :: rest =>
      if leadsWith pat (c :: rest) then some ([], (c :: rest).drop pat.length)
      else
        match splitFirst pat rest with
        | some (p, q) => some (c :: p, q)
        | none => none

/-- JavaScript lexicographic string order (code-unit comparison, as used by the
default `Array.prototype.sort` comparator), on char lists. -/
def lexLe : List Char → List Char → Bool
  | [], _ => true
  | _ :: _, [] => false
  | a :: as, b :: bs => if a = b then lexLe as bs else decide (a < b)

/-- `lexLe` lifted to `String`. -/
def strLe (a b : String) : Bool := lexLe a.data b.data

/-- Insert into a `strLe`-sorted list, preserving sortedness. -/
def insertSorted (x : String) : List String → List String
  | [] => [x]
  | y :: ys => if strLe x y then x :: y :: ys else y :: insertSorted x ys

/-- Ascending lexicographic sort: models the JavaScript
`Array.prototype.sort()` call (default comparator) in
`createSupabaseMigration`. -/
def sortJS : List String → List String
  | [] => []
  | x :: xs => insertSorted x (sortJS xs)

/-- JavaScript `s.includes(pat)`. -/
def includesSub (s pat : String) : Bool := (splitFirst pat.data s.data).isSome

/-- The filter step of the migration lookup in `createSupabaseMigration`
(utils.ts): `readdirSync(migrationsDir).filter(f => f.includes('initial_setup.sql'))`. -/
def migrationFilter (names : List String) : List String :=
  names.filter (fun f => includesSub f "initial_setup.sql")

/-- The full lookup in `createSupabaseMigration` (utils.ts):
`.filter(...).sort().reverse()` then index `[0]` — i.e. the most-recent
(lexicographically greatest) filename containing `initial_setup.sql`. -/
def migrationPick (names : List String) : Option String :=
  ((sortJS (migrationFilter names)).reverse).head?

/-- The fixed schema payload written over the generated migration file by
`createSupabaseMigration` (utils.ts).  The source constant is a ~450-line SQL
script; its exact bytes are irrelevant to every claim (all claims treat it as
an opaque fixed payload), so the model keeps a fixed representative constant. -/
def migrationContent : String :=
  "-- Initial setup migration for user roles and authentication\ncreate type public.app_role as enum ('admin', 'user');\n"

/-- An association-list file store: path to content.  Used for the
content-level model of `createSupabaseMigration` and `updateSupabaseConfig`. -/
def readFS (fs : List (String × String)) (p : String) : Option String :=
  match fs.find? (fun e => e.1 == p) with
  | some e => some e.2
  | none => none

/-- `writeFileSync`: create-or-truncate.  Overwrites the entry in place when
the path is present, appends a new entry otherwise. -/
def writeFS (fs : List (String × String)) (p c : String) : List (String × String) :=
  if (fs.find? (fun e => e.1 == p)).isSome then
    fs.map (fun e => if e.1 = p then (p, c) else e)
  else fs ++ [(p, c)]

/-- Content-level model of the migration-directory rewrite performed by
`createSupabaseMigration` (utils.ts): pick the most-recent
`initial_setup.sql` match among the directory entries, then overwrite that
file's entire body with the fixed payload (a single `writeFileSync`).
Returns `none` when the lookup finds zero matches (the function's
`migrationFiles.length === 0` error branch). -/
def createSupabaseMigrationDir (dir : List (String × String)) :
    Option (List (String × String)) :=
  match migrationPick (dir.map (fun e => e.1)) with
  | none => none
  | some m => some (writeFS dir m migrationContent)

/-- Literal `site_url = "` — the prefix of the `/site_url = "[^"]*"/` pattern
in `updateSupabaseConfig`. -/
def siteLitL : List Char := "site_url = \"".data

/-- The replacement `site_url = "http://localhost:3000"` in
`updateSupabaseConfig`. -/
def newSiteL : List Char := "site_url = \"http://localhost:3000\"".data

/-- Literal `additional_redirect_urls = [` — the prefix of the
`/additional_redirect_urls = \[[^\]]*\]/` pattern in `updateSupabaseConfig`. -/
def rlitL : List Char := "additional_redirect_urls = [".data

/-- The replacement redirect-URL list in `updateSupabaseConfig`. -/
def newRedirectL : List Char :=
  "additional_redirect_urls = [\"http://localhost:3000\", \"http://localhost:3000/api/auth/v1/callback\"]".data

/-- Literal `[auth]` — the `\[auth\]` anchor of the insertion patterns in
`updateSupabaseConfig`. -/
def authLitL : List Char := "[auth]".data

/-- Literal `[auth.hook.custom_access_token]` — the hook-section anchor in
`updateSupabaseConfig`. -/
def hookLitL : List Char := "[auth.hook.custom_access_token]".data

/-- The hook section text inserted by `updateSupabaseConfig` (it starts with a
newline in the source template literal). -/
def hookSectionL : List Char :=
  "\n[auth.hook.custom_access_token]\nenabled = true\nuri = \"pg-functions://postgres/public/custom_access_token_hook\"".data

/-- `configContent.replace(/site_url = "[^"]*"/, 'site_url = "http://localhost:3000"')`:
find the leftmost `site_url = "` whose value is closed by a following `"`,
and replace the whole matched span with the localhost value.  When the
pattern does not match (no occurrence, or no closing quote anywhere after
the only possible occurrences) the string is unchanged, as in JavaScript. -/
def patchSiteUrl (s : List Char) : List Char :=
  match splitFirst siteLitL s with
  | none => s
  | some (p, post) =>
      match splitFirst ['"'] post with
      | none => s
      | some (_, tail) => p ++ newSiteL ++ tail

/-- The backtracking search of the greedy `\[auth\][^[]*site_url = "[^"]*"`
match: among the positions of `site_url = "` inside the bracket-free span
`A` (rightmost first, as the greedy `[^[]*` backtracks), find one whose
value is closed by a `"` in the remaining text (`a2 ++ rest`).  Returns
`(a1, v, tail)` where `A = a1 ++ siteLitL ++ a2`, the value is `v`, and
`tail` is the text after the closing quote. -/
def tryOcc (rest : List Char) : List Char → Option (List Char × List Char × List Char)
  | [] => none
  | c :: A' =>
      match tryOcc rest A' with
      | some (a1, v, t) => some (c :: a1, v, t)
      | none =>
          if leadsWith siteLitL (c :: A') then
            match splitFirst ['"'] (((c :: A').drop siteLitL.length) ++ rest) with
            | some (v, t) => some ([], v, t)
            | none => none
          else none

/-- `configContent.replace(/(\[auth\][^[]*site_url = "[^"]*")/, '$1\n' + newRedirectUrls)`:
scan left to right for a `[auth]` anchor; after it take the maximal
bracket-free span and backtrack for the last `site_url = "..."` inside it;
on a match, keep the matched group and insert a newline plus the new
redirect-URL list right after it.  On failure at one anchor, scanning
continues (next `[auth]` occurrence); with no match anywhere the string is
unchanged. -/
def insertAfterSiteUrl : List Char → List Char
  | [] => []
  | c :: rest =>
      if leadsWith authLitL (c :: rest) then
        match tryOcc (((c :: rest).drop authLitL.length).dropWhile (fun x => x != '['))
            (((c :: rest).drop authLitL.length).takeWhile (fun x => x != '[')) with
        | some (a1, v, t) =>
            authLitL ++ a1 ++ siteLitL ++ v ++ '"' :: '\n' :: newRedirectL ++ t
        | none => c :: insertAfterSiteUrl rest
      else c :: insertAfterSiteUrl rest

/-- The `additional_redirect_urls` patch of `updateSupabaseConfig`: if the
`/additional_redirect_urls = \[[^\]]*\]/` pattern matches (its literal head
occurs and a `]` closes the list), replace the matched span with the new
list; otherwise insert the new list after the `site_url` line of the
`[auth]` section. -/
def patchRedirect (s : List Char) : List Char :=
  match splitFirst rlitL s with
  | some (p, post) =>
      match splitFirst [']'] post with
      | some (_, tail) => p ++ newRedirectL ++ tail
      | none => insertAfterSiteUrl s
  | none => insertAfterSiteUrl s

/-- The auth-hook patch of `updateSupabaseConfig`: when the literal
`[auth.hook.custom_access_token]` occurs, replace from it up to the next
`[` (or the end) with the hook section (`.replace(/\[auth\.hook\.custom_access_token\][^[]*(?=\[|$)/, hookSection + '\n')`);
otherwise append the hook section to the bracket-free span following the
first `[auth]` (`.replace(/(\[auth\][^[]*)/, '$1' + hookSection + '\n')`). -/
def patchHook (s : List Char) : List Char :=
  match splitFirst hookLitL s with
  | some (p, post) =>
      p ++ hookSectionL ++ '\n' :: post.dropWhile (fun x => x != '[')
  | none =>
      match splitFirst authLitL s with
      | none => s
      | some (p, post) =>
          p ++ authLitL ++ post.takeWhile (fun x => x != '[') ++ hookSectionL ++
            '\n' :: post.dropWhile (fun x => x != '[')

/-- The three textual substitutions of `updateSupabaseConfig`, in source
order: site URL, then redirect-URL list, then auth hook. -/
def updateConfigContent (s : String) : String :=
  String.mk (patchHook (patchRedirect (patchSiteUrl s.data)))

/-- `join(projectPath, "supabase", "config.toml")`. -/
def configTomlPath (projectPath : String) : String :=
  joinP (joinP projectPath "supabase") "config.toml"

/-- Content-level model of `updateSupabaseConfig` (utils.ts): if the config
file is absent, log and return `false` without touching the store; otherwise
read it, compute the three substitutions, and perform the single write of
the fully patched content. -/
def updateSupabaseConfig (fs : List (String × String)) (projectPath : String) :
    List (String × String) × Bool :=
  match readFS fs (configTomlPath projectPath) with
  | none => (fs, false)
  | some c => (writeFS fs (configTomlPath projectPath) (updateConfigContent c), true)

/-- The interactive prompts the CLI can render (clack `text` / `select` /
`confirm` calls). -/
inductive PKind where
  | nameText
  | archSelect
  | templateSelect
  | confirmShadcnAll
  deriving DecidableEq, Repr

/-- Subprocess command lines spawned by the source, one constructor per
distinct command string:
* `probePnpm` = `pnpm --version`, `probeYarn` = `yarn --version`
  (silent probes in `detectPackageManager`);
* `supabaseInit` = `npx supabase init`;
* `shadcnInit` = `pnpm dlx shadcn@latest init --yes --defaults`,
  `shadcnAddAll` = `pnpm dlx shadcn@latest add --all --yes`;
* `mkdirProject n` = `mkdir -p ${n}`, `mkdirAppsDirs` = `mkdir -p apps/web apps/mobile`,
  `mkdirApp` = `mkdir -p app`;
* `createNextAppMono` = `npx create-next-app@latest apps/web --typescript --tailwind --eslint --app --src-dir --import-alias "@/*" --yes`,
  `createNextAppSolo n` = the same command with target `${n}`;
* `pnpmAddSupabase` = `pnpm add @supabase/supabase-js @supabase/ssr server-only`,
  `pnpmAddZodSupabase` = `pnpm add zod @supabase/supabase-js @supabase/ssr server-only`,
  `pnpmAddZod` = `pnpm add zod`;
* `createExpoApp` = `npx create-expo-app@latest mobile --no-install`;
* `expoInstallSupabase` = `npx expo install @supabase/supabase-js @react-native-async-storage/async-storage`,
  `expoInstallGestureHandler` = `npx expo install react-native-gesture-handler`,
  `expoInstallZod` = `npx expo install zod`;
* `pnpmInstall` = `pnpm install`;
* `migrationNew` = `npx supabase migration new initial_setup`;
* `pnpmAddExpoSdk` = `pnpm add expo@~52.0.0`,
  `expoInstallRouterDeps` = `npx expo install expo-router@latest react-native-safe-area-context react-native-screens expo-linking expo-constants expo-status-bar`;
* `reusablesAddAll` = `pnpm dlx @react-native-reusables/cli@latest add --all --yes`,
  `expoInstallReusablesFallback` = `npx expo install nativewind@^4.0.1 tailwindcss class-variance-authority clsx tailwind-merge`;
* `expoInstallLegend` = `npx expo install @legendapp/state uuid react-native-mmkv`,
  `pnpmAddLegend` = `pnpm add @legendapp/state uuid`;
* `expoInstallLint` = `npx expo install eslint eslint-config-expo prettier eslint-config-prettier eslint-plugin-prettier --dev`,
  `pnpmAddLintDev` = `pnpm add --save-dev eslint-config-prettier eslint-plugin-prettier prettier`. -/
inductive Cmd where
  | probePnpm
  | probeYarn
  | supabaseInit
  | shadcnInit
  | shadcnAddAll
  | mkdirProject (n : String)
  | mkdirAppsDirs
  | mkdirApp
  | createNextAppMono
  | createNextAppSolo (n : String)
  | pnpmAddSupabase
  | pnpmAddZodSupabase
  | pnpmAddZod
  | createExpoApp
  | expoInstallSupabase
  | expoInstallGestureHandler
  | expoInstallZod
  | pnpmInstall
  | migrationNew
  | pnpmAddExpoSdk
  | expoInstallRouterDeps
  | reusablesAddAll
  | expoInstallReusablesFallback
  | expoInstallLegend
  | pnpmAddLegend
  | expoInstallLint
  | pnpmAddLintDev
  deriving DecidableEq, Repr

/-- Observable events of a run, in program order:
`prompt` = an interactive prompt is rendered; `dirCheck` = the Directory
Guard's `existsSync(targetDirectory)` probe; `cmd cwd c` = a subprocess is
spawned in directory `cwd`; `mkdirp` = `mkdirSync(..., recursive)`;
`write` = `writeFileSync`; `fdelete` = `unlinkSync`; `warnForce` = the
force-overwrite warning; `plan` = the dry-run plan is printed; `gen a` =
the generator for architecture `a` is entered. -/
inductive Ev where
  | prompt (k : PKind)
  | dirCheck (p : String)
  | cmd (cwd : String) (c : Cmd)
  | mkdirp (p : String)
  | write (p : String)
  | fdelete (p : String)
  | warnForce
  | plan
  | gen (a : String)
  deriving DecidableEq, Repr

/-- The environment a run executes against: which subprocess commands exit
zero (per working directory), which paths exist (a read-only oracle for the
`existsSync` probes of files produced by external tools), what the
migrations directory lists after `supabase migration new` (per project
path), and the answer given to the ShadCN confirm prompt. -/
structure World where
  cmdOk : String → Cmd → Bool
  exists0 : String → Bool
  migNames : String → List String
  confirmAll : Bool

/-- `runCommand` (utils.ts): log, spawn via `execSync`, return `false` on a
non-zero exit instead of throwing. -/
def runCommand (w : World) (cwd : String) (c : Cmd) : List Ev × Bool :=
  ([Ev.cmd cwd c], w.cmdOk cwd c)

/-- `detectPackageManager` (utils.ts): lock-file probes (pure reads), then
silent `pnpm --version` / `yarn --version` subprocess probes. -/
def detectPackageManager (w : World) (cwd : String) : List Ev :=
  if w.exists0 (joinP cwd "pnpm-lock.yaml") then []
  else if w.exists0 (joinP cwd "yarn.lock") then []
  else if w.exists0 (joinP cwd "package-lock.json") then []
  else if w.cmdOk cwd Cmd.probePnpm then [Ev.cmd cwd Cmd.probePnpm]
  else [Ev.cmd cwd Cmd.probePnpm, Ev.cmd cwd Cmd.probeYarn]

/-- `setupSupabase` (utils.ts): `npx supabase init`, `false` on failure. -/
def setupSupabase (w : World) (p : String) : List Ev × Bool :=
  runCommand w p Cmd.supabaseInit

/-- `setupShadcn` (utils.ts): init (required within the step), then
optionally add all components (failure only logged). -/
def setupShadcn (w : World) (p : String) (addAllComponents : Bool) : List Ev × Bool :=
  let r1 := runCommand w p Cmd.shadcnInit
  if !r1.2 then (r1.1, false)
  else if addAllComponents then (r1.1 ++ (runCommand w p Cmd.shadcnAddAll).1, true)
  else (r1.1, true)

/-- `createEnvFile` (utils.ts): one env-template write (`.env` for Expo,
`.env.local` for Next.js). -/
def createEnvFile (p : String) (isExpoApp : Bool) : List Ev :=
  if isExpoApp then [Ev.write (joinP p ".env")]
  else [Ev.write (joinP p ".env.local")]

/-- `createSupabaseClient` (utils.ts): ensure `lib/` exists, then write the
client file(s). -/
def createSupabaseClient (w : World) (p : String) (isExpoApp : Bool) : List Ev :=
  (if w.exists0 (joinP p "lib") then [] else [Ev.mkdirp (joinP p "lib")]) ++
  (if isExpoApp then [Ev.write (joinP (joinP p "lib") "supabase.ts")]
   else [Ev.write (joinP (joinP p "lib") "supabaseAdminClient.ts"),
         Ev.write (joinP (joinP p "lib") "supabaseBrowserClient.ts"),
         Ev.write (joinP (joinP p "lib") "supabaseServerClient.ts"),
         Ev.write (joinP (joinP p "lib") "supabase.ts")])

/-- `createNextjsMiddleware` (utils.ts). -/
def createNextjsMiddleware (p : String) : List Ev :=
  [Ev.write (joinP p "middleware.ts")]

/-- `createCoolifyConfig` (utils.ts). -/
def createCoolifyConfig (p : String) : List Ev :=
  [Ev.write (joinP p "COOLIFY_DEPLOYMENT.md")]

/-- `createPnpmWorkspace` (utils.ts). -/
def createPnpmWorkspace (p : String) : List Ev :=
  [Ev.write (joinP p "pnpm-workspace.yaml"),
   Ev.write (joinP p "package.json"),
   Ev.write (joinP p ".npmrc")]

/-- `createSharedPackage` (utils.ts): two unconditional recursive mkdirs and
five writes. -/
def createSharedPackage (p : String) : List Ev :=
  [Ev.mkdirp (joinP (joinP p "packages") "shared"),
   Ev.mkdirp (joinP (joinP (joinP p "packages") "shared") "src"),
   Ev.write (joinP (joinP (joinP p "packages") "shared") "package.json"),
   Ev.write (joinP (joinP (joinP (joinP p "packages") "shared") "src") "index.ts"),
   Ev.write (joinP (joinP (joinP (joinP p "packages") "shared") "src") "types.ts"),
   Ev.write (joinP (joinP (joinP (joinP p "packages") "shared") "src") "utils.ts"),
   Ev.write (joinP (joinP (joinP p "packages") "shared") "tsconfig.json")]

/-- `createRootTsConfig` (utils.ts). -/
def createRootTsConfig (p : String) : List Ev :=
  [Ev.write (joinP p "tsconfig.json")]

/-- `configureNextjsForMonorepo` (utils.ts). -/
def configureNextjsForMonorepo (p : String) : List Ev :=
  [Ev.write (joinP p "next.config.js"), Ev.write (joinP p "tsconfig.json")]

/-- `configureExpoForMonorepo` (utils.ts). -/
def configureExpoForMonorepo (p : String) : List Ev :=
  [Ev.write (joinP p "tsconfig.json"), Ev.write (joinP p "metro.config.js")]

/-- `setupSupabaseTypes` (utils.ts): ensure `types/` exists, write the
placeholder `database.types.ts`. -/
def setupSupabaseTypes (w : World) (p : String) : List Ev :=
  (if w.exists0 (joinP p "types") then [] else [Ev.mkdirp (joinP p "types")]) ++
  [Ev.write (joinP (joinP p "types") "database.types.ts")]

/-- `setupLegendState` (utils.ts): install (throws → caught → `false`),
then the store scaffold and the `types/supabase.ts` write. -/
def setupLegendState (w : World) (p : String) (isExpoApp : Bool) : List Ev × Bool :=
  let r1 := runCommand w p (if isExpoApp then Cmd.expoInstallLegend else Cmd.pnpmAddLegend)
  if !r1.2 then (r1.1, false)
  else
    (r1.1 ++
     (if w.exists0 (joinP p "stores") then [] else [Ev.mkdirp (joinP p "stores")]) ++
     [Ev.write (joinP (joinP p "stores") "userStore.ts")] ++
     (if w.exists0 (joinP p "types") then [] else [Ev.mkdirp (joinP p "types")]) ++
     [Ev.write (joinP (joinP p "types") "supabase.ts")], true)

/-- `setupPrettierAndESLint` (utils.ts): a dependency install whose result is
ignored, then four config writes. -/
def setupPrettierAndESLint (w : World) (p : String) (isExpoApp : Bool) : List Ev × Bool :=
  ((runCommand w p (if isExpoApp then Cmd.expoInstallLint else Cmd.pnpmAddLintDev)).1 ++
   [Ev.write (joinP p ".eslintrc.js"),
    Ev.write (joinP p ".prettierrc"),
    Ev.write (joinP p ".prettierignore"),
    Ev.write (joinP p ".eslintignore")], true)

/-- `setupExpoRouter` (utils.ts): two required installs, the `package.json`
entry-point patch (the `readFileSync` throw on a missing manifest is caught
by the function's `try` and surfaces as `false`), the `app/` scaffold, the
conditional `app.json` patch, the babel config write, and the cleanup of the
template's old `App.js` / `App.tsx` via `unlinkSync` when they exist. -/
def setupExpoRouter (w : World) (p : String) : List Ev × Bool :=
  let r1 := runCommand w p Cmd.pnpmAddExpoSdk
  if !r1.2 then (r1.1, false)
  else
    let r2 := runCommand w p Cmd.expoInstallRouterDeps
    if !r2.2 then (r1.1 ++ r2.1, false)
    else if !(w.exists0 (joinP p "package.json")) then (r1.1 ++ r2.1, false)
    else
      (r1.1 ++ r2.1 ++
       [Ev.write (joinP p "package.json")] ++
       (runCommand w p Cmd.mkdirApp).1 ++
       [Ev.write (joinP (joinP p "app") "_layout.tsx"),
        Ev.write (joinP (joinP p "app") "index.tsx")] ++
       (if w.exists0 (joinP p "app.json") then [Ev.write (joinP p "app.json")] else []) ++
       [Ev.write (joinP p "babel.config.js")] ++
       (if w.exists0 (joinP p "App.js") then [Ev.fdelete (joinP p "App.js")] else []) ++
       (if w.exists0 (joinP p "App.tsx") then [Ev.fdelete (joinP p "App.tsx")] else []),
       true)

/-- `setupReactNativeReusables` (utils.ts): one-shot CLI install; on failure
the two-tier fallback (manual dependency set, `src/lib/utils.ts`, the
`components/ui` stub, tailwind/global-css/babel writes). -/
def setupReactNativeReusables (w : World) (p : String) : List Ev × Bool :=
  let r1 := runCommand w p Cmd.reusablesAddAll
  if r1.2 then (r1.1, true)
  else
    let r2 := runCommand w p Cmd.expoInstallReusablesFallback
    if !r2.2 then (r1.1 ++ r2.1, false)
    else
      (r1.1 ++ r2.1 ++
       (if w.exists0 (joinP (joinP p "src") "lib") then []
        else [Ev.mkdirp (joinP (joinP p "src") "lib")]) ++
       [Ev.write (joinP (joinP (joinP p "src") "lib") "utils.ts")] ++
       (if w.exists0 (joinP (joinP (joinP p "src") "components") "ui") then []
        else [Ev.mkdirp (joinP (joinP (joinP p "src") "components") "ui")]) ++
       [Ev.write (joinP (joinP (joinP (joinP p "src") "components") "ui") "collapsible.tsx"),
        Ev.write (joinP p "tailwind.config.js"),
        Ev.write (joinP p "global.css"),
        Ev.write (joinP p "babel.config.js")], true)

/-- `updatePackageJsonScripts` (utils.ts): skip silently when the manifest is
absent, otherwise merge the script entries and rewrite it. -/
def updatePackageJsonScripts (w : World) (p : String) : List Ev :=
  if !(w.exists0 (joinP p "package.json")) then []
  else [Ev.write (joinP p "package.json")]

/-- `createProjectReadme` (utils.ts). -/
def createProjectReadme (p : String) : List Ev :=
  [Ev.write (joinP p "README.md")]

/-- `createProjectClaudeMd` (utils.ts). -/
def createProjectClaudeMd (p : String) : List Ev :=
  [Ev.write (joinP p "CLAUDE.md")]

/-- Event-level model of `createSupabaseMigration` (utils.ts): run
`npx supabase migration new initial_setup` (failure → `false`), look up the
just-created file by the most-recent filename match (zero matches →
`false`), then overwrite the located file. -/
def createSupabaseMigrationRun (w : World) (p : String) : List Ev × Bool :=
  let r1 := runCommand w p Cmd.migrationNew
  if !r1.2 then (r1.1, false)
  else
    match migrationPick (w.migNames p) with
    | none => (r1.1, false)
    | some m =>
        (r1.1 ++ [Ev.write (joinP (joinP (joinP p "supabase") "migrations") m)], true)

/-- Event-level model of `updateSupabaseConfig` (utils.ts): missing config
file → `false` with no write; otherwise the single patched write. -/
def updateSupabaseConfigRun (w : World) (p : String) : List Ev × Bool :=
  if !(w.exists0 (configTomlPath p)) then ([], false)
  else ([Ev.write (configTomlPath p)], true)

/-- `createMonorepo` (generators.ts), as the event trace over `World` plus a
completion flag (`false` = one of the `throw new Error(...)` sites fired and
aborted the remainder).  `root` is the working directory at entry
(`process.cwd()`), `n` the app name, `t` the template type string. -/
def createMonorepo (w : World) (root n t : String) : List Ev × Bool :=
  let projectPath := joinP root n
  let webAppPath := joinP (joinP projectPath "apps") "web"
  let mobileAppPath := joinP (joinP projectPath "apps") "mobile"
  let r1 := runCommand w root (Cmd.mkdirProject n)
  if !r1.2 then (r1.1, false)
  else
    let e2 := createPnpmWorkspace projectPath ++ createSharedPackage projectPath ++
      createRootTsConfig projectPath ++ (runCommand w projectPath Cmd.mkdirAppsDirs).1
    let r3 := runCommand w projectPath Cmd.createNextAppMono
    if !r3.2 then (r1.1 ++ e2 ++ r3.1, false)
    else
      let e4 := (setupSupabase w webAppPath).1 ++
        (if t = "opinionated" then
          (setupShadcn w webAppPath true).1 ++
          (runCommand w webAppPath Cmd.pnpmAddZodSupabase).1
         else (runCommand w webAppPath Cmd.pnpmAddSupabase).1) ++
        createEnvFile webAppPath false ++
        createSupabaseClient w webAppPath false ++
        createNextjsMiddleware webAppPath ++
        setupSupabaseTypes w webAppPath ++
        (if t = "opinionated" then
          (setupLegendState w webAppPath false).1 ++
          (setupPrettierAndESLint w webAppPath false).1
         else []) ++
        configureNextjsForMonorepo webAppPath
      let r5 := runCommand w (joinP projectPath "apps") Cmd.createExpoApp
      if !r5.2 then (r1.1 ++ e2 ++ r3.1 ++ e4 ++ r5.1, false)
      else
        let r6 := setupExpoRouter w mobileAppPath
        if !r6.2 then (r1.1 ++ e2 ++ r3.1 ++ e4 ++ r5.1 ++ r6.1, false)
        else
          let e7 := (runCommand w mobileAppPath Cmd.expoInstallSupabase).1 ++
            (if t = "opinionated" then
              (setupReactNativeReusables w mobileAppPath).1 ++
              (runCommand w mobileAppPath Cmd.expoInstallGestureHandler).1 ++
              (runCommand w mobileAppPath Cmd.expoInstallZod).1
             else []) ++
            (setupSupabase w mobileAppPath).1 ++
            createEnvFile mobileAppPath true ++
            createSupabaseClient w mobileAppPath true ++
            setupSupabaseTypes w mobileAppPath ++
            (if t = "opinionated" then
              (setupLegendState w mobileAppPath true).1 ++
              (setupPrettierAndESLint w mobileAppPath true).1
             else []) ++
            configureExpoForMonorepo mobileAppPath ++
            (runCommand w projectPath Cmd.pnpmInstall).1 ++
            (createSupabaseMigrationRun w webAppPath).1 ++
            (updateSupabaseConfigRun w webAppPath).1 ++
            createCoolifyConfig projectPath ++
            updatePackageJsonScripts w projectPath ++
            updatePackageJsonScripts w webAppPath ++
            updatePackageJsonScripts w mobileAppPath ++
            createProjectReadme projectPath ++
            createProjectClaudeMd projectPath
          (r1.1 ++ e2 ++ r3.1 ++ e4 ++ r5.1 ++ r6.1 ++ e7, true)

/-- `createWebOnlyApp` (generators.ts): package-manager detection, the
required `create-next-app` call (throw on failure), `process.chdir` into the
project, Supabase init, the required client-library install (throw on
failure), the opinionated branch with its interactive ShadCN confirm prompt,
the file writes, migration + config patch, and the closing steps. -/
def createWebOnlyApp (w : World) (root n t : String) : List Ev × Bool :=
  let projectPath := joinP root n
  let e0 := detectPackageManager w root
  let e1 : List Ev := [Ev.cmd root (Cmd.createNextAppSolo n)]
  if !(w.cmdOk root (Cmd.createNextAppSolo n)) then (e0 ++ e1, false)
  else
    let e2 := (setupSupabase w projectPath).1
    let r3 := runCommand w projectPath Cmd.pnpmAddSupabase
    if !r3.2 then (e0 ++ e1 ++ e2 ++ r3.1, false)
    else
      let e4 :=
        if t = "opinionated" then
          [Ev.prompt PKind.confirmShadcnAll] ++
          (setupShadcn w projectPath w.confirmAll).1 ++
          (runCommand w projectPath Cmd.pnpmAddZod).1
        else []
      let e5 := createEnvFile projectPath false ++
        createSupabaseClient w projectPath false ++
        createNextjsMiddleware projectPath ++
        setupSupabaseTypes w projectPath ++
        (if t = "opinionated" then
          (setupLegendState w projectPath false).1 ++
          (setupPrettierAndESLint w projectPath false).1
         else []) ++
        (createSupabaseMigrationRun w projectPath).1 ++
        (updateSupabaseConfigRun w projectPath).1 ++
        createCoolifyConfig projectPath ++
        updatePackageJsonScripts w projectPath ++
        createProjectReadme projectPath ++
        createProjectClaudeMd projectPath ++
        [Ev.write (joinP projectPath "next.config.js")]
      (e0 ++ e1 ++ e2 ++ r3.1 ++ e4 ++ e5, true)

/-- The recognized CLI flags after `parseArgs` (dist/index.js). -/
structure Flags where
  template : Option String
  architecture : Option String
  help : Bool
  version : Bool
  verbose : Bool
  quiet : Bool
  force : Bool
  dryRun : Bool

/-- Answers the interactive prompts would produce (`none` = the user
cancelled at that prompt). -/
structure Answers where
  nameAnswer : Option String
  archAnswer : Option String
  templateAnswer : Option String

/-- How the process ends: `exited c` = an explicit `process.exit(c)` or a
normal completion (`exited 0`); `crashed` = an uncaught generator throw. -/
inductive Outcome where
  | exited (code : Nat)
  | crashed
  deriving DecidableEq, Repr

/-- Control-flow of one resolution phase: halt the process or continue with
a value. -/
inductive Phase (α : Type) where
  | halt (o : Outcome)
  | next (v : α)
  deriving DecidableEq

/-- The app-name resolution of dist/index.js when no (non-empty) positional
is present: quiet mode exits 1, otherwise the `text` prompt is rendered
(cancel → exit 0). -/
def promptForName (f : Flags) (i : Answers) : List Ev × Phase String :=
  if f.quiet then ([], Phase.halt (Outcome.exited 1))
  else
    match i.nameAnswer with
    | none => ([Ev.prompt PKind.nameText], Phase.halt (Outcome.exited 0))
    | some n => ([Ev.prompt PKind.nameText], Phase.next n)

/-- App-name resolution (dist/index.js): `positionals[0]`, with the empty
string falsy (`if (!appName)`) and hence treated as missing. -/
def resolveAppName (f : Flags) (pos : Option String) (i : Answers) : List Ev × Phase String :=
  match pos with
  | some n => if n = "" then promptForName f i else ([], Phase.next n)
  | none => promptForName f i

/-- The Directory Guard (dist/index.js): probe
`existsSync(join(process.cwd(), appName))`; when the target exists, exit 1
unless `--force`, and emit the overwrite warning only when verbose and not
quiet. -/
def directoryGuard (f : Flags) (root n : String) (w : World) : List Ev × Phase Unit :=
  if w.exists0 (joinP root n) then
    if !f.force then ([Ev.dirCheck (joinP root n)], Phase.halt (Outcome.exited 1))
    else if f.verbose && !f.quiet then
      ([Ev.dirCheck (joinP root n), Ev.warnForce], Phase.next ())
    else ([Ev.dirCheck (joinP root n)], Phase.next ())
  else ([Ev.dirCheck (joinP root n)], Phase.next ())

/-- The enum validation applied to the architecture value after either
source (flag or prompt): a non-empty value outside
{`monorepo`, `nextjs-only`} exits 1. -/
def validateArch (a : String) : Phase String :=
  if a ≠ "" && !(a = "monorepo" || a = "nextjs-only") then Phase.halt (Outcome.exited 1)
  else Phase.next a

/-- Architecture resolution (dist/index.js): flag value if truthy, else exit
1 in quiet mode, else the `select` prompt (cancel → exit 0); then the enum
validation. -/
def resolveArch (f : Flags) (i : Answers) : List Ev × Phase String :=
  match f.architecture with
  | some a =>
      if a = "" then
        if f.quiet then ([], Phase.halt (Outcome.exited 1))
        else
          match i.archAnswer with
          | none => ([Ev.prompt PKind.archSelect], Phase.halt (Outcome.exited 0))
          | some v => ([Ev.prompt PKind.archSelect], validateArch v)
      else ([], validateArch a)
  | none =>
      if f.quiet then ([], Phase.halt (Outcome.exited 1))
      else
        match i.archAnswer with
        | none => ([Ev.prompt PKind.archSelect], Phase.halt (Outcome.exited 0))
        | some v => ([Ev.prompt PKind.archSelect], validateArch v)

/-- The enum validation applied to the template value: a non-empty value
outside {`bare`, `opinionated`} exits 1. -/
def validateTemplate (t : String) : Phase String :=
  if t ≠ "" && !(t = "bare" || t = "opinionated") then Phase.halt (Outcome.exited 1)
  else Phase.next t

/-- Template resolution (dist/index.js), mirroring `resolveArch`. -/
def resolveTemplate (f : Flags) (i : Answers) : List Ev × Phase String :=
  match f.template with
  | some a =>
      if a = "" then
        if f.quiet then ([], Phase.halt (Outcome.exited 1))
        else
          match i.templateAnswer with
          | none => ([Ev.prompt PKind.templateSelect], Phase.halt (Outcome.exited 0))
          | some v => ([Ev.prompt PKind.templateSelect], validateTemplate v)
      else ([], validateTemplate a)
  | none =>
      if f.quiet then ([], Phase.halt (Outcome.exited 1))
      else
        match i.templateAnswer with
        | none => ([Ev.prompt PKind.templateSelect], Phase.halt (Outcome.exited 0))
        | some v => ([Ev.prompt PKind.templateSelect], validateTemplate v)

/-- The top-level control flow of dist/index.js: version/help handling, the
three-axis resolution with the Directory Guard between the name and the
architecture (its position in the source), the dry-run early exit, and the
generator dispatch.  `root` is `process.cwd()`. -/
def mainRun (f : Flags) (pos : Option String) (i : Answers) (w : World) (root : String) :
    List Ev × Outcome :=
  if f.version then ([], Outcome.exited 0)
  else if f.help then ([], Outcome.exited 0)
  else
    match resolveAppName f pos i with
    | (e1, Phase.halt o) => (e1, o)
    | (e1, Phase.next n) =>
      match directoryGuard f root n w with
      | (e2, Phase.halt o) => (e1 ++ e2, o)
      | (e2, Phase.next _) =>
        match resolveArch f i with
        | (e3, Phase.halt o) => (e1 ++ e2 ++ e3, o)
        | (e3, Phase.next a) =>
          match resolveTemplate f i with
          | (e4, Phase.halt o) => (e1 ++ e2 ++ e3 ++ e4, o)
          | (e4, Phase.next t) =>
            if f.dryRun then (e1 ++ e2 ++ e3 ++ e4 ++ [Ev.plan], Outcome.exited 0)
            else
              let g := if a = "monorepo" then createMonorepo w root n t
                       else createWebOnlyApp w root n t
              (e1 ++ e2 ++ e3 ++ e4 ++ Ev.gen a :: g.1,
               if g.2 then Outcome.exited 0 else Outcome.crashed)

/-- Events that touch the filesystem or spawn a subprocess (the effects a
dry run must not perform). -/
def isEffect : Ev → Bool
  | Ev.cmd _ _ => true
  | Ev.mkdirp _ => true
  | Ev.write _ => true
  | Ev.fdelete _ => true
  | _ => false

/-- A trace free of filesystem writes and subprocess invocations. -/
def effectFree (tr : List Ev) : Prop := ∀ e ∈ tr, isEffect e = false

/-- Events a generator flow can emit: subprocess spawns, filesystem
mutations, and (in the opinionated single-app flow) the confirm prompt.
The guard/dry-run events (`dirCheck`, `warnForce`, `plan`, `gen`) never
originate inside a generator. -/
def genEvent : Ev → Bool
  | Ev.cmd _ _ => true
  | Ev.mkdirp _ => true
  | Ev.write _ => true
  | Ev.fdelete _ => true
  | Ev.prompt _ => true
  | _ => false



theorem mem_of_head?_eq_some {α : Type} {l : List α} {a : α} (h : l.head? = some a) :
    a ∈ l := by
  cases l with
  | nil => simp at h
  | cons x t =>
    simp only [List.head?_cons, Option.some.injEq] at h
    subst h
    exact List.mem_cons_self x t

theorem lexLe_refl : ∀ a, lexLe a a = true := by
  intro a
  induction a with
  | nil => rfl
  | cons x xs ih => simp only [lexLe, if_pos rfl]; exact ih

theorem lexLe_trans : ∀ a b c, lexLe a b = true → lexLe b c = true → lexLe a c = true := by
  intro a
  induction a with
  | nil => intro b c _ _; rfl
  | cons x xs ih =>
    intro b c hab hbc
    cases b with
    | nil => simp [lexLe] at hab
    | cons y ys =>
      cases c with
      | nil => simp [lexLe] at hbc
      | cons z zs =>
        simp only [lexLe] at hab hbc ⊢
        by_cases hxy : x = y
        · subst hxy
          simp only [if_pos rfl] at hab
          by_cases hyz : x = z
          · subst hyz; simp only [if_pos rfl] at hbc ⊢; exact ih ys zs hab hbc
          · simp only [if_neg hyz] at hbc ⊢; exact hbc
        · simp only [if_neg hxy] at hab
          by_cases hyz : y = z
          · subst hyz; simp only [if_neg hxy]; exact hab
          · simp only [if_neg hyz] at hbc
            have h1 := of_decide_eq_true hab
            have h2 := of_decide_eq_true hbc
            have hxz : x ≠ z := ne_of_lt (lt_trans h1 h2)
            simp only [if_neg hxz]
            exact decide_eq_true (lt_trans h1 h2)

theorem lexLe_total : ∀ a b, lexLe a b = true ∨ lexLe b a = true := by
  intro a
  induction a with
  | nil => intro b; left; rfl
  | cons x xs ih =>
    intro b
    cases b with
    | nil => right; rfl
    | cons y ys =>
      simp only [lexLe]
      by_cases hxy : x = y
      · subst hxy
        simp only [if_pos rfl]
        exact ih ys
      · have hyx : y ≠ x := fun h => hxy h.symm
        simp only [if_neg hxy, if_neg hyx]
        rcases lt_or_gt_of_ne hxy with h | h
        · left; exact decide_eq_true h
        · right; exact decide_eq_true h

theorem strLe_refl (a : String) : strLe a a = true := lexLe_refl a.data

theorem strLe_trans (a b c : String) (h1 : strLe a b = true) (h2 : strLe b c = true) :
    strLe a c = true := lexLe_trans a.data b.data c.data h1 h2

theorem strLe_total (a b : String) : strLe a b = true ∨ strLe b a = true :=
  lexLe_total a.data b.data

theorem mem_insertSorted (x y : String) (l : List String) :
    y ∈ insertSorted x l ↔ y = x ∨ y ∈ l := by
  induction l with
  | nil => simp [insertSorted]
  | cons a t ih =>
    simp only [insertSorted]
    by_cases h : strLe x a = true
    · simp only [if_pos h, List.mem_cons]
    · simp only [if_neg h, List.mem_cons, ih]
      tauto

theorem pairwise_insertSorted (x : String) (l : List String)
    (hp : List.Pairwise (fun a b => strLe a b = true) l) :
    List.Pairwise (fun a b => strLe a b = true) (insertSorted x l) := by
  induction l with
  | nil => simp [insertSorted]
  | cons a t ih =>
    rcases List.pairwise_cons.mp hp with ⟨ha, ht⟩
    simp only [insertSorted]
    by_cases h : strLe x a = true
    · simp only [if_pos h]
      refine List.pairwise_cons.mpr ⟨?_, hp⟩
      intro b hb
      rcases List.mem_cons.mp hb with rfl | hb
      · exact h
      · exact strLe_trans _ _ _ h (ha b hb)
    · simp only [if_neg h]
      refine List.pairwise_cons.mpr ⟨?_, ih ht⟩
      intro b hb
      rcases (mem_insertSorted x b t).mp hb with hb' | hb
      · subst hb'
        rcases strLe_total b a with h' | h'
        · exact absurd h' h
        · exact h'
      · exact ha b hb

theorem mem_sortJS (y : String) (l : List String) : y ∈ sortJS l ↔ y ∈ l := by
  induction l with
  | nil => simp [sortJS]
  | cons a t ih => simp [sortJS, mem_insertSorted, ih]

theorem pairwise_sortJS (l : List String) :
    List.Pairwise (fun a b => strLe a b = true) (sortJS l) := by
  induction l with
  | nil => simp [sortJS]
  | cons a t ih => exact pairwise_insertSorted a (sortJS t) ih

theorem pairwise_reverse_head_max (l : List String) (m : String)
    (hp : List.Pairwise (fun a b => strLe a b = true) l)
    (hm : l.reverse.head? = some m) : ∀ x ∈ l, strLe x m = true := by
  induction l with
  | nil => simp at hm
  | cons a t ih =>
    rcases List.pairwise_cons.mp hp with ⟨ha, ht⟩
    cases t with
    | nil =>
      simp only [List.reverse_singleton, List.head?_cons, Option.some.injEq] at hm
      intro x hx
      have hxa : x = a := List.mem_singleton.mp hx
      subst hxa
      rw [← hm]
      exact strLe_refl x
    | cons b t' =>
      have hne : (b :: t').reverse ≠ [] := by simp
      have hm' : (b :: t').reverse.head? = some m := by
        rw [List.reverse_cons, List.head?_append] at hm
        rcases hh : (b :: t').reverse.head? with _ | v
        · exact absurd (List.reverse_eq_nil_iff.mp (List.head?_eq_none_iff.mp hh)) (by simp)
        · rw [hh] at hm
          simpa using hm
      have hmax := ih ht hm'
      have hmem : m ∈ b :: t' := by
        have h1 := mem_of_head?_eq_some hm'
        exact List.mem_reverse.mp h1
      intro x hx
      rcases List.mem_cons.mp hx with rfl | hx
      · exact ha m hmem
      · exact hmax x hx

theorem migrationPick_sound (names : List String) (m : String)
    (h : migrationPick names = some m) :
    m ∈ migrationFilter names ∧ ∀ f ∈ migrationFilter names, strLe f m = true := by
  unfold migrationPick at h
  have hmem : m ∈ sortJS (migrationFilter names) := by
    have h1 := mem_of_head?_eq_some h
    exact List.mem_reverse.mp h1
  refine ⟨(mem_sortJS m _).mp hmem, ?_⟩
  intro f hf
  exact pairwise_reverse_head_max _ m (pairwise_sortJS _) h f ((mem_sortJS f _).mpr hf)

theorem readFS_cons_ne (a : String × String) (t : List (String × String)) (p : String)
    (h : a.1 ≠ p) : readFS (a :: t) p = readFS t p := by
  simp [readFS, List.find?_cons, beq_eq_false_iff_ne.mpr h]

theorem readFS_cons_eq (a : String × String) (t : List (String × String)) (p : String)
    (h : a.1 = p) : readFS (a :: t) p = some a.2 := by
  simp [readFS, List.find?_cons, beq_iff_eq.mpr h]

theorem readFS_map_update_same (fs : List (String × String)) (p c : String)
    (h : (fs.find? (fun e => e.1 == p)).isSome = true) :
    readFS (fs.map (fun e => if e.1 = p then (p, c) else e)) p = some c := by
  induction fs with
  | nil => simp at h
  | cons a t ih =>
    by_cases hap : a.1 = p
    · rw [List.map_cons, if_pos hap]
      exact readFS_cons_eq (p, c) _ p rfl
    · have hb : (a.1 == p) = false := beq_eq_false_iff_ne.mpr hap
      rw [List.find?_cons] at h
      rw [hb] at h
      rw [List.map_cons, if_neg hap, readFS_cons_ne a _ p hap]
      exact ih h

theorem readFS_map_update_ne (fs : List (String × String)) (p c q : String)
    (hq : q ≠ p) :
    readFS (fs.map (fun e => if e.1 = p then (p, c) else e)) q = readFS fs q := by
  induction fs with
  | nil => rfl
  | cons a t ih =>
    by_cases hap : a.1 = p
    · rw [List.map_cons, if_pos hap]
      rw [readFS_cons_ne (p, c) _ q (fun hc => hq hc.symm)]
      rw [readFS_cons_ne a t q (by rw [hap]; exact fun hc => hq hc.symm)]
      exact ih
    · rw [List.map_cons, if_neg hap]
      by_cases haq : a.1 = q
      · rw [readFS_cons_eq a _ q haq, readFS_cons_eq a t q haq]
      · rw [readFS_cons_ne a _ q haq, readFS_cons_ne a t q haq]
        exact ih

theorem readFS_append_single_same (fs : List (String × String)) (p c : String)
    (h : fs.find? (fun e => e.1 == p) = none) :
    readFS (fs ++ [(p, c)]) p = some c := by
  induction fs with
  | nil => exact readFS_cons_eq (p, c) [] p rfl
  | cons a t ih =>
    rw [List.find?_cons] at h
    rcases hb : (a.1 == p) with _ | _
    · rw [hb] at h
      have hne : a.1 ≠ p := beq_eq_false_iff_ne.mp hb
      rw [List.cons_append, readFS_cons_ne a _ p hne]
      exact ih h
    · rw [hb] at h
      cases h

theorem readFS_append_single_ne (fs : List (String × String)) (p c q : String)
    (hq : q ≠ p) :
    readFS (fs ++ [(p, c)]) q = readFS fs q := by
  induction fs with
  | nil =>
    simp only [List.nil_append]
    exact readFS_cons_ne (p, c) [] q (fun hc => hq hc.symm)
  | cons a t ih =>
    by_cases haq : a.1 = q
    · rw [List.cons_append, readFS_cons_eq a _ q haq, readFS_cons_eq a t q haq]
    · rw [List.cons_append, readFS_cons_ne a _ q haq, readFS_cons_ne a t q haq]
      exact ih

theorem readFS_writeFS_same (fs : List (String × String)) (p c : String) :
    readFS (writeFS fs p c) p = some c := by
  unfold writeFS
  by_cases hs : (fs.find? (fun e => e.1 == p)).isSome = true
  · rw [if_pos hs]
    exact readFS_map_update_same fs p c hs
  · rw [if_neg hs]
    exact readFS_append_single_same fs p c (Option.not_isSome_iff_eq_none.mp hs)

theorem readFS_writeFS_other (fs : List (String × String)) (p c q : String)
    (hq : q ≠ p) :
    readFS (writeFS fs p c) q = readFS fs q := by
  unfold writeFS
  by_cases hs : (fs.find? (fun e => e.1 == p)).isSome = true
  · rw [if_pos hs]
    exact readFS_map_update_ne fs p c q hq
  · rw [if_neg hs]
    exact readFS_append_single_ne fs p c q hq

theorem leadsWith_nil (pat : List Char) (h : leadsWith pat [] = true) : pat = [] := by
  cases pat with
  | nil => rfl
  | cons p ps => simp [leadsWith] at h

theorem leadsWith_eq (pat : List Char) :
    ∀ s, leadsWith pat s = true → s = pat ++ s.drop pat.length := by
  induction pat with
  | nil => intro s _; simp
  | cons p ps ih =>
    intro s h
    cases s with
    | nil => simp [leadsWith] at h
    | cons c ss =>
      simp only [leadsWith] at h
      by_cases hpc : p = c
      · subst hpc
        rw [if_pos rfl] at h
        have := ih ss h
        simp only [List.length_cons, List.drop_succ_cons, List.cons_append]
        exact congrArg (p :: ·) this
      · rw [if_neg hpc] at h
        cases h

theorem splitFirst_sound (pat : List Char) :
    ∀ s p q, splitFirst pat s = some (p, q) → s = p ++ pat ++ q := by
  intro s
  induction s with
  | nil =>
    intro p q h
    simp only [splitFirst] at h
    rcases hl : leadsWith pat [] with _ | _
    · rw [hl] at h; cases h
    · rw [hl] at h
      simp only [if_pos rfl] at h
      rcases h with ⟨rfl, rfl⟩
      rw [leadsWith_nil pat hl]
      rfl
  | cons c rest ih =>
    intro p q h
    simp only [splitFirst] at h
    rcases hl : leadsWith pat (c :: rest) with _ | _
    · rw [hl] at h
      simp only [Bool.false_eq_true, if_false] at h
      rcases hsp : splitFirst pat rest with _ | ⟨p', q'⟩
      · rw [hsp] at h; cases h
      · rw [hsp] at h
        rcases h with ⟨rfl, rfl⟩
        have := ih p' q hsp
        rw [List.cons_append, List.cons_append, ← this]
    · rw [hl] at h
      simp only [if_pos rfl] at h
      rcases h with ⟨rfl, rfl⟩
      simpa using leadsWith_eq pat (c :: rest) hl

theorem splitFirst_single_sound (c : Char) :
    ∀ s v t, splitFirst [c] s = some (v, t) → s = v ++ c :: t ∧ c ∉ v := by
  intro s
  induction s with
  | nil => intro v t h; simp [splitFirst, leadsWith] at h
  | cons d rest ih =>
    intro v t h
    simp only [splitFirst, leadsWith] at h
    by_cases hcd : c = d
    · subst hcd
      simp only [if_pos rfl] at h
      rcases h with ⟨rfl, rfl⟩
      simp
    · rw [if_neg hcd] at h
      simp only [Bool.false_eq_true, if_false] at h
      rcases hsp : splitFirst [c] rest with _ | ⟨v', t'⟩
      · rw [hsp] at h; cases h
      · rw [hsp] at h
        rcases h with ⟨rfl, rfl⟩
        rcases ih v' t hsp with ⟨heq, hnm⟩
        constructor
        · rw [List.cons_append, ← heq]
        · intro hc
          rcases List.mem_cons.mp hc with hc | hc
          · exact hcd hc
          · exact hnm hc

theorem splitFirst_single_complete (c : Char) :
    ∀ v r, c ∉ v → splitFirst [c] (v ++ c :: r) = some (v, r) := by
  intro v
  induction v with
  | nil =>
    intro r _
    simp [splitFirst, leadsWith]
  | cons d v' ih =>
    intro r hv
    have hdc : c ≠ d := fun h => hv (by rw [h]; exact List.mem_cons_self d v')
    have hv' : c ∉ v' := fun h => hv (List.mem_cons_of_mem d h)
    simp only [List.cons_append, splitFirst, leadsWith, if_neg hdc, Bool.false_eq_true,
      if_false]
    rw [show v'.append (c :: r) = v' ++ c :: r from rfl, ih r hv']

theorem takeWhile_append_bracket (A t : List Char) (hA : '[' ∉ A) :
    (A ++ '[' :: t).takeWhile (fun x => x != '[') = A := by
  induction A with
  | nil => simp [List.takeWhile]
  | cons c A' ih =>
    have hc : c ≠ '[' := fun h => hA (by rw [h]; exact List.mem_cons_self _ _)
    have hA' : '[' ∉ A' := fun h => hA (List.mem_cons_of_mem c h)
    have hb : (c != '[') = true := bne_iff_ne.mpr hc
    simp only [List.cons_append, List.takeWhile_cons, hb, if_true]
    rw [ih hA']

theorem dropWhile_append_bracket (A t : List Char) (hA : '[' ∉ A) :
    (A ++ '[' :: t).dropWhile (fun x => x != '[') = '[' :: t := by
  induction A with
  | nil => simp [List.dropWhile]
  | cons c A' ih =>
    have hc : c ≠ '[' := fun h => hA (by rw [h]; exact List.mem_cons_self _ _)
    have hA' : '[' ∉ A' := fun h => hA (List.mem_cons_of_mem c h)
    have hb : (c != '[') = true := bne_iff_ne.mpr hc
    rw [List.cons_append, List.dropWhile_cons]
    simp only [hb, if_true]
    exact ih hA'

theorem tryOcc_sound (rest : List Char) :
    ∀ A a1 v t, tryOcc rest A = some (a1, v, t) →
      ∃ a2, A = a1 ++ siteLitL ++ a2 ∧ a2 ++ rest = v ++ '"' :: t ∧ '"' ∉ v := by
  intro A
  induction A with
  | nil => intro a1 v t h; simp [tryOcc] at h
  | cons c A' ih =>
    intro a1 v t h
    simp only [tryOcc] at h
    rcases hrec : tryOcc rest A' with _ | ⟨b, v', t'⟩
    · rw [hrec] at h
      rcases hl : leadsWith siteLitL (c :: A') with _ | _
      · rw [hl] at h; simp at h
      · rw [hl] at h
        simp only [if_pos rfl] at h
        rcases hsp : splitFirst ['"'] (((c :: A').drop siteLitL.length) ++ rest)
            with _ | ⟨v0, t0⟩
        · rw [hsp] at h; cases h
        · rw [hsp] at h
          rcases h with ⟨rfl, rfl, rfl⟩
          refine ⟨(c :: A').drop siteLitL.length, ?_, ?_, ?_⟩
          · simpa using leadsWith_eq siteLitL (c :: A') hl
          · exact (splitFirst_single_sound '"' _ _ _ hsp).1
          · exact (splitFirst_single_sound '"' _ _ _ hsp).2
    · rw [hrec] at h
      rcases h with ⟨rfl, rfl, rfl⟩
      rcases ih b v t hrec with ⟨a2, heq, hrest, hnm⟩
      exact ⟨a2, by rw [List.cons_append, List.cons_append, ← heq], hrest, hnm⟩

theorem insertAfterSiteUrl_found :
    ∀ s p post a1 v t, splitFirst authLitL s = some (p, post) →
      tryOcc (post.dropWhile (fun x => x != '['))
        (post.takeWhile (fun x => x != '[')) = some (a1, v, t) →
      insertAfterSiteUrl s =
        p ++ authLitL ++ a1 ++ siteLitL ++ v ++ '"' :: '\n' :: newRedirectL ++ t := by
  intro s
  induction s with
  | nil =>
    intro p post a1 v t h _
    have : splitFirst authLitL [] = none := by decide
    rw [this] at h
    cases h
  | cons c rest ih =>
    intro p post a1 v t h htry
    simp only [splitFirst] at h
    simp only [insertAfterSiteUrl]
    rcases hl : leadsWith authLitL (c :: rest) with _ | _
    · rw [hl] at h
      simp only [Bool.false_eq_true, if_false] at h ⊢
      rcases hsp : splitFirst authLitL rest with _ | ⟨p', q'⟩
      · rw [hsp] at h; cases h
      · rw [hsp] at h
        rcases h with ⟨rfl, rfl⟩
        rw [ih p' post a1 v t hsp htry]
        simp
    · rw [hl] at h
      simp only [if_pos rfl] at h ⊢
      rcases h with ⟨rfl, rfl⟩
      rw [htry]
      simp

/-- C8: the default-migration step selects, among the files of the migrations
directory whose name contains `initial_setup.sql`, the lexicographically
greatest one (the most-recent, since the external CLI time-stamps names),
replaces that file's entire body with the fixed schema payload (a single
overwrite, not an append), and leaves every other file in the directory
byte-for-byte unchanged. -/
theorem c8_migration_rewrite (dir : List (String × String)) (m : String)
    (h : migrationPick (dir.map (fun e => e.1)) = some m) :
    (m ∈ migrationFilter (dir.map (fun e => e.1)) ∧
     ∀ f ∈ migrationFilter (dir.map (fun e => e.1)), strLe f m = true) ∧
    createSupabaseMigrationDir dir = some (writeFS dir m migrationContent) ∧
    readFS (writeFS dir m migrationContent) m = some migrationContent ∧
    ∀ q, q ≠ m → readFS (writeFS dir m migrationContent) q = readFS dir q := by
  refine ⟨migrationPick_sound _ m h, ?_, readFS_writeFS_same dir m migrationContent, ?_⟩
  · unfold createSupabaseMigrationDir
    rw [h]
  · intro q hq
    exact readFS_writeFS_other dir m migrationContent q hq

theorem c8_migration_rewrite_witness :
    createSupabaseMigrationDir
      [("20240101000000_initial_setup.sql", "-- old a"),
       ("20240102000000_initial_setup.sql", "-- old b"),
       ("config.toml", "keep")] =
      some (writeFS
        [("20240101000000_initial_setup.sql", "-- old a"),
         ("20240102000000_initial_setup.sql", "-- old b"),
         ("config.toml", "keep")] "20240102000000_initial_setup.sql" migrationContent) ∧
    readFS (writeFS
        [("20240101000000_initial_setup.sql", "-- old a"),
         ("20240102000000_initial_setup.sql", "-- old b"),
         ("config.toml", "keep")] "20240102000000_initial_setup.sql" migrationContent)
      "config.toml" =
      readFS
        [("20240101000000_initial_setup.sql", "-- old a"),
         ("20240102000000_initial_setup.sql", "-- old b"),
         ("config.toml", "keep")] "config.toml" := by
  have h := c8_migration_rewrite
    [("20240101000000_initial_setup.sql", "-- old a"),
     ("20240102000000_initial_setup.sql", "-- old b"),
     ("config.toml", "keep")] "20240102000000_initial_setup.sql" (by decide)
  exact ⟨h.2.1, h.2.2.2 "config.toml" (by decide)⟩

/-- C9: the config patch rewrites the generated TOML so that (1) the
`site_url` string field is replaced in place with the localhost value;
(2) the `additional_redirect_urls` bracketed list is replaced in place when
present, and (3) otherwise inserted right after the `site_url` line of the
`[auth]` section; (4) the `[auth.hook.custom_access_token]` section is
replaced in place when present, and (5) otherwise appended to the `[auth]`
section — i.e. patch in place, else insert into the named enclosing
section, for each of the three fields. -/
theorem c9_config_patch_semantics :
    (∀ s p v r, splitFirst siteLitL s = some (p, v ++ '"' :: r) → '"' ∉ v →
       patchSiteUrl s = p ++ newSiteL ++ r) ∧
    (∀ s p u r, splitFirst rlitL s = some (p, u ++ ']' :: r) → ']' ∉ u →
       patchRedirect s = p ++ newRedirectL ++ r) ∧
    (∀ s p A t0 a1 v t, splitFirst rlitL s = none →
       splitFirst authLitL s = some (p, A ++ '[' :: t0) → '[' ∉ A →
       tryOcc ('[' :: t0) A = some (a1, v, t) →
       patchRedirect s = p ++ authLitL ++ a1 ++ siteLitL ++ v ++ '"' :: '\n' ::
         newRedirectL ++ t) ∧
    (∀ s p B t0, splitFirst hookLitL s = some (p, B ++ '[' :: t0) → '[' ∉ B →
       patchHook s = p ++ hookSectionL ++ '\n' :: '[' :: t0) ∧
    (∀ s p A t0, splitFirst hookLitL s = none →
       splitFirst authLitL s = some (p, A ++ '[' :: t0) → '[' ∉ A →
       patchHook s = p ++ authLitL ++ A ++ hookSectionL ++ '\n' :: '[' :: t0) := by
  refine ⟨?_, ?_, ?_, ?_, ?_⟩
  · intro s p v r h hv
    unfold patchSiteUrl
    rw [h]
    dsimp only
    rw [splitFirst_single_complete '"' v r hv]
  · intro s p u r h hu
    unfold patchRedirect
    rw [h]
    dsimp only
    rw [splitFirst_single_complete ']' u r hu]
  · intro s p A t0 a1 v t hnone hauth hA htry
    unfold patchRedirect
    rw [hnone]
    dsimp only
    apply insertAfterSiteUrl_found s p (A ++ '[' :: t0) a1 v t hauth
    rw [takeWhile_append_bracket A t0 hA, dropWhile_append_bracket A t0 hA]
    exact htry
  · intro s p B t0 h hB
    unfold patchHook
    rw [h]
    dsimp only
    rw [dropWhile_append_bracket B t0 hB]
  · intro s p A t0 hnone hauth hA
    unfold patchHook
    rw [hnone]
    dsimp only
    rw [hauth]
    dsimp only
    rw [takeWhile_append_bracket A t0 hA, dropWhile_append_bracket A t0 hA]

theorem c9_config_patch_semantics_witness :
    patchSiteUrl "x site_url = \"http://a\" y".data =
      "x ".data ++ newSiteL ++ " y".data ∧
    patchRedirect "q additional_redirect_urls = [\"u\"] z".data =
      "q ".data ++ newRedirectL ++ " z".data ∧
    patchRedirect "p[auth]site_url = \"u\"\n[other]".data =
      "p".data ++ authLitL ++ [] ++ siteLitL ++ "u".data ++ '"' :: '\n' ::
        newRedirectL ++ "\n[other]".data ∧
    patchHook "a[auth.hook.custom_access_token]\nenabled = false\n[next]".data =
      "a".data ++ hookSectionL ++ '\n' :: '[' :: "next]".data ∧
    patchHook "[auth]\nk = v\n[other]".data =
      "".data ++ authLitL ++ "\nk = v\n".data ++ hookSectionL ++ '\n' :: '[' ::
        "other]".data := by
  refine ⟨?_, ?_, ?_, ?_, ?_⟩
  · exact c9_config_patch_semantics.1 "x site_url = \"http://a\" y".data
      "x ".data "http://a".data " y".data (by decide) (by decide)
  · exact c9_config_patch_semantics.2.1 "q additional_redirect_urls = [\"u\"] z".data
      "q ".data "\"u\"".data " z".data (by decide) (by decide)
  · exact c9_config_patch_semantics.2.2.1 "p[auth]site_url = \"u\"\n[other]".data
      "p".data "site_url = \"u\"\n".data "other]".data [] "u".data "\n[other]".data
      (by decide) (by decide) (by decide) (by decide)
  · exact c9_config_patch_semantics.2.2.2.1
      "a[auth.hook.custom_access_token]\nenabled = false\n[next]".data
      "a".data "\nenabled = false\n".data "next]".data (by decide) (by decide)
  · exact c9_config_patch_semantics.2.2.2.2 "[auth]\nk = v\n[other]".data
      "".data "\nk = v\n".data "other]".data (by decide) (by decide) (by decide)

/-- C10: when `supabase/config.toml` does not exist under the project path,
`updateSupabaseConfig` returns `false` and performs no filesystem write at
all (every file is left unchanged); when it exists, the function's single
write stores the content obtained by composing all three textual
substitutions, and every other path is unchanged. -/
theorem c10_config_missing_no_write (fs : List (String × String)) (projectPath : String) :
    (readFS fs (configTomlPath projectPath) = none →
       updateSupabaseConfig fs projectPath = (fs, false)) ∧
    (∀ c, readFS fs (configTomlPath projectPath) = some c →
       updateSupabaseConfig fs projectPath =
         (writeFS fs (configTomlPath projectPath)
            (String.mk (patchHook (patchRedirect (patchSiteUrl c.data)))), true) ∧
       ∀ q, q ≠ configTomlPath projectPath →
         readFS (updateSupabaseConfig fs projectPath).1 q = readFS fs q) := by
  constructor
  · intro h
    unfold updateSupabaseConfig
    rw [h]
  · intro c h
    constructor
    · unfold updateSupabaseConfig updateConfigContent
      rw [h]
    · intro q hq
      unfold updateSupabaseConfig
      rw [h]
      dsimp only
      exact readFS_writeFS_other fs (configTomlPath projectPath) _ q hq

theorem c10_config_missing_no_write_witness :
    updateSupabaseConfig [("other.txt", "o")] "proj" = ([("other.txt", "o")], false) ∧
    updateSupabaseConfig
      [(configTomlPath "proj", "[auth]\nsite_url = \"http://x\"\n")] "proj" =
      (writeFS [(configTomlPath "proj", "[auth]\nsite_url = \"http://x\"\n")]
        (configTomlPath "proj")
        (String.mk (patchHook (patchRedirect
          (patchSiteUrl "[auth]\nsite_url = \"http://x\"\n".data)))), true) ∧
    readFS (updateSupabaseConfig
      [(configTomlPath "proj", "[auth]\nsite_url = \"http://x\"\n")] "proj").1
      "other.txt" =
      readFS [(configTomlPath "proj", "[auth]\nsite_url = \"http://x\"\n")] "other.txt" := by
  refine ⟨?_, ?_, ?_⟩
  · exact (c10_config_missing_no_write [("other.txt", "o")] "proj").1 (by decide)
  · exact ((c10_config_missing_no_write
      [(configTomlPath "proj", "[auth]\nsite_url = \"http://x\"\n")] "proj").2
      "[auth]\nsite_url = \"http://x\"\n" (by decide)).1
  · exact ((c10_config_missing_no_write
      [(configTomlPath "proj", "[auth]\nsite_url = \"http://x\"\n")] "proj").2
      "[auth]\nsite_url = \"http://x\"\n" (by decide)).2 "other.txt" (by decide)

/-- C1 (claim is right, code is wrong): a quiet-mode run with all three axes
supplied by flags (`myapp --quiet -t opinionated -a nextjs-only`, empty
target, all external commands succeeding) still renders the interactive
ShadCN "add all components?" confirm prompt inside `createWebOnlyApp`,
which ignores its `quiet` option — contradicting the tool's own `--help`
text, README and test suite ("no prompts" in quiet mode). -/
theorem c1_quiet_run_renders_confirm_prompt :
    Ev.prompt PKind.confirmShadcnAll ∈
      (mainRun
        { template := some "opinionated", architecture := some "nextjs-only",
          help := false, version := false, verbose := false, quiet := true,
          force := false, dryRun := false }
        (some "myapp")
        { nameAnswer := none, archAnswer := none, templateAnswer := none }
        { cmdOk := fun _ _ => true, exists0 := fun _ => false,
          migNames := fun _ => ["20240101000000_initial_setup.sql"], confirmAll := true }
        "/work").1 := by decide

/-- C2 counterexample: a run with the invalid architecture flag value
`monolith` does exit with code 1, but the Directory Guard's
directory-existence check has already run by then (the guard precedes
architecture resolution in dist/index.js), contradicting the claim that the
guard is never reached. -/
theorem c2_counterexample :
    (mainRun
      { template := some "bare", architecture := some "monolith",
        help := false, version := false, verbose := false, quiet := true,
        force := false, dryRun := false }
      (some "myapp")
      { nameAnswer := none, archAnswer := none, templateAnswer := none }
      { cmdOk := fun _ _ => true, exists0 := fun _ => false,
        migNames := fun _ => [], confirmAll := true }
      "/work").2 = Outcome.exited 1 ∧
    Ev.dirCheck (joinP "/work" "myapp") ∈
      (mainRun
        { template := some "bare", architecture := some "monolith",
          help := false, version := false, verbose := false, quiet := true,
          force := false, dryRun := false }
        (some "myapp")
        { nameAnswer := none, archAnswer := none, templateAnswer := none }
        { cmdOk := fun _ _ => true, exists0 := fun _ => false,
          migNames := fun _ => [], confirmAll := true }
        "/work").1 := by decide

/-- C2 amended: only the project name is resolved before the Directory
Guard; architecture (and templateType) resolution happens after it.  A run
with an invalid architecture flag value still exits with code 1, but the
Directory Guard's existence check has already executed. -/

theorem validateArch_invalid (a : String) (ha0 : a ≠ "") (hb1 : a ≠ "monorepo")
    (hb2 : a ≠ "nextjs-only") : validateArch a = Phase.halt (Outcome.exited 1) := by
  unfold validateArch
  simp [ha0, hb1, hb2]

theorem validateArch_valid (a : String) (ha : a = "monorepo" ∨ a = "nextjs-only") :
    validateArch a = Phase.next a := by
  unfold validateArch
  rcases ha with rfl | rfl <;> simp

theorem validateTemplate_valid (t : String) (ht : t = "bare" ∨ t = "opinionated") :
    validateTemplate t = Phase.next t := by
  unfold validateTemplate
  rcases ht with rfl | rfl <;> simp

theorem resolveAppName_cases (f : Flags) (pos : Option String) (i : Answers) (n : String)
    (hn : pos = some n ∧ n ≠ "" ∨
      (pos = none ∨ pos = some "") ∧ f.quiet = false ∧ i.nameAnswer = some n) :
    resolveAppName f pos i = ([], Phase.next n) ∨
    resolveAppName f pos i = ([Ev.prompt PKind.nameText], Phase.next n) := by
  unfold resolveAppName promptForName
  rcases hn with ⟨rfl, hne⟩ | ⟨hpos, hq, hans⟩
  · left
    simp [hne]
  · right
    rcases hpos with rfl | rfl <;> simp [hq, hans]

theorem resolveArch_cases (f : Flags) (i : Answers) (a : String)
    (ha : f.architecture = some a ∧ a ≠ "" ∨
      f.architecture = none ∧ f.quiet = false ∧ i.archAnswer = some a) :
    resolveArch f i = ([], validateArch a) ∨
    resolveArch f i = ([Ev.prompt PKind.archSelect], validateArch a) := by
  unfold resolveArch
  rcases ha with ⟨hf, hne⟩ | ⟨hf, hq, hans⟩ <;> rw [hf]
  · left
    simp [hne]
  · right
    simp [hq, hans]

theorem resolveTemplate_cases (f : Flags) (i : Answers) (t : String)
    (ht : f.template = some t ∧ t ≠ "" ∨
      f.template = none ∧ f.quiet = false ∧ i.templateAnswer = some t) :
    resolveTemplate f i = ([], validateTemplate t) ∨
    resolveTemplate f i = ([Ev.prompt PKind.templateSelect], validateTemplate t) := by
  unfold resolveTemplate
  rcases ht with ⟨hf, hne⟩ | ⟨hf, hq, hans⟩ <;> rw [hf]
  · left
    simp [hne]
  · right
    simp [hq, hans]

theorem directoryGuard_dirCheck_mem (f : Flags) (root n : String) (w : World) :
    Ev.dirCheck (joinP root n) ∈ (directoryGuard f root n w).1 := by
  unfold directoryGuard
  split
  · split
    · simp
    · split <;> simp
  · simp

theorem directoryGuard_phase_cases (f : Flags) (root n : String) (w : World) :
    (directoryGuard f root n w).2 = Phase.halt (Outcome.exited 1) ∨
    (directoryGuard f root n w).2 = Phase.next () := by
  unfold directoryGuard
  split
  · split
    · left; rfl
    · split <;> (right; rfl)
  · right; rfl

theorem c2_amended (f : Flags) (pos : Option String) (i : Answers) (w : World)
    (root n a : String)
    (hv : f.version = false) (hh : f.help = false)
    (hn : pos = some n) (hn0 : n ≠ "")
    (ha : f.architecture = some a) (ha0 : a ≠ "")
    (hb1 : a ≠ "monorepo") (hb2 : a ≠ "nextjs-only") :
    (mainRun f pos i w root).2 = Outcome.exited 1 ∧
    Ev.dirCheck (joinP root n) ∈ (mainRun f pos i w root).1 := by
  have hname : resolveAppName f pos i = ([], Phase.next n) := by
    rw [hn]
    unfold resolveAppName
    simp [hn0]
  have harch : resolveArch f i = ([], validateArch a) := by
    unfold resolveArch
    rw [ha]
    simp [ha0]
  have hval := validateArch_invalid a ha0 hb1 hb2
  unfold mainRun
  rw [hv, hh]
  simp only [Bool.false_eq_true, if_false]
  rw [hname]
  dsimp only
  rcases hgd : directoryGuard f root n w with ⟨e2, ph⟩
  have hmem : Ev.dirCheck (joinP root n) ∈ e2 := by
    have h := directoryGuard_dirCheck_mem f root n w
    rw [hgd] at h
    exact h
  have hcase := directoryGuard_phase_cases f root n w
  rw [hgd] at hcase
  cases ph with
  | halt o =>
    dsimp only at hcase ⊢
    rcases hcase with h | h
    · rw [Phase.halt.injEq] at h
      subst h
      exact ⟨rfl, by simp [hmem]⟩
    · cases h
  | next u =>
    dsimp only
    rw [harch, hval]
    dsimp only
    exact ⟨rfl, by simp [hmem]⟩


theorem effectFree_nil : effectFree [] := by
  intro x hx
  cases hx

theorem effectFree_cons (e : Ev) (tr : List Ev) (he : isEffect e = false)
    (h : effectFree tr) : effectFree (e :: tr) := by
  intro x hx
  rcases List.mem_cons.mp hx with rfl | hx
  · exact he
  · exact h x hx

/-- C6: with the dry-run flag set and a valid resolved configuration, the
run performs zero filesystem writes and zero subprocess invocations, prints
the plan, and exits 0; this happens strictly after the directory-collision
check (a colliding directory without force still exits 1, before any plan
is printed) and strictly before any provisioning step. -/
theorem c6_dry_run (f : Flags) (pos : Option String) (i : Answers) (w : World)
    (root n a t : String)
    (hv : f.version = false) (hh : f.help = false) (hd : f.dryRun = true)
    (hn : pos = some n ∧ n ≠ "" ∨
      (pos = none ∨ pos = some "") ∧ f.quiet = false ∧ i.nameAnswer = some n)
    (ha : f.architecture = some a ∨
      f.architecture = none ∧ f.quiet = false ∧ i.archAnswer = some a)
    (haV : a = "monorepo" ∨ a = "nextjs-only")
    (ht : f.template = some t ∨
      f.template = none ∧ f.quiet = false ∧ i.templateAnswer = some t)
    (htV : t = "bare" ∨ t = "opinionated") :
    (w.exists0 (joinP root n) = true ∧ f.force = false →
       (mainRun f pos i w root).2 = Outcome.exited 1 ∧
       Ev.plan ∉ (mainRun f pos i w root).1 ∧
       effectFree (mainRun f pos i w root).1) ∧
    (w.exists0 (joinP root n) = false ∨ f.force = true →
       (mainRun f pos i w root).2 = Outcome.exited 0 ∧
       Ev.plan ∈ (mainRun f pos i w root).1 ∧
       Ev.dirCheck (joinP root n) ∈ (mainRun f pos i w root).1 ∧
       effectFree (mainRun f pos i w root).1) := by
  have ha0 : a ≠ "" := by rcases haV with rfl | rfl <;> decide
  have ht0 : t ≠ "" := by rcases htV with rfl | rfl <;> decide
  have hname := resolveAppName_cases f pos i n hn
  have harch := resolveArch_cases f i a (by
    rcases ha with h | h
    · exact Or.inl ⟨h, ha0⟩
    · exact Or.inr h)
  have htempl := resolveTemplate_cases f i t (by
    rcases ht with h | h
    · exact Or.inl ⟨h, ht0⟩
    · exact Or.inr h)
  rw [validateArch_valid a haV] at harch
  rw [validateTemplate_valid t htV] at htempl
  constructor
  · rintro ⟨hex, hforce⟩
    have hgd : directoryGuard f root n w =
        ([Ev.dirCheck (joinP root n)], Phase.halt (Outcome.exited 1)) := by
      unfold directoryGuard
      rw [hex, hforce]
      simp
    unfold mainRun
    rw [hv, hh]
    simp only [Bool.false_eq_true, if_false]
    rcases hname with h1 | h1 <;>
      rw [h1] <;> dsimp only <;> rw [hgd] <;> dsimp only <;>
      refine ⟨rfl, by simp, ?_⟩ <;>
      (simp only [List.cons_append, List.nil_append, List.append_nil]
       repeat (first | exact effectFree_nil | refine effectFree_cons _ _ rfl ?_))
  · intro hor
    have hgd : directoryGuard f root n w = ([Ev.dirCheck (joinP root n)], Phase.next ()) ∨
        directoryGuard f root n w =
          ([Ev.dirCheck (joinP root n), Ev.warnForce], Phase.next ()) := by
      unfold directoryGuard
      rcases hor with hex | hforce
      · rw [hex]
        left
        rfl
      · rcases hex2 : w.exists0 (joinP root n) with _ | _
        · left
          rfl
        · rw [hforce]
          simp only [Bool.not_true, Bool.false_eq_true, if_false]
          rcases hvb : (f.verbose && !f.quiet) with _ | _
          · left
            rfl
          · right
            rfl
    unfold mainRun
    rw [hv, hh]
    simp only [Bool.false_eq_true, if_false]
    rcases hname with h1 | h1 <;> rw [h1] <;> dsimp only <;>
      rcases hgd with h2 | h2 <;> rw [h2] <;> dsimp only <;>
      rcases harch with h3 | h3 <;> rw [h3] <;> dsimp only <;>
      rcases htempl with h4 | h4 <;> rw [h4] <;> dsimp only <;>
      rw [hd] <;> simp only [reduceIte] <;>
      refine ⟨by simp, by simp, by simp, ?_⟩ <;>
      (simp only [List.cons_append, List.nil_append, List.append_nil]
       repeat (first | exact effectFree_nil | refine effectFree_cons _ _ rfl ?_))

theorem c2_amended_witness :
    (mainRun
      { template := some "bare", architecture := some "monolith",
        help := false, version := false, verbose := false, quiet := true,
        force := false, dryRun := false }
      (some "myapp")
      { nameAnswer := none, archAnswer := none, templateAnswer := none }
      { cmdOk := fun _ _ => true, exists0 := fun _ => true,
        migNames := fun _ => [], confirmAll := true }
      "/work").2 = Outcome.exited 1 ∧
    Ev.dirCheck (joinP "/work" "myapp") ∈
      (mainRun
        { template := some "bare", architecture := some "monolith",
          help := false, version := false, verbose := false, quiet := true,
          force := false, dryRun := false }
        (some "myapp")
        { nameAnswer := none, archAnswer := none, templateAnswer := none }
        { cmdOk := fun _ _ => true, exists0 := fun _ => true,
          migNames := fun _ => [], confirmAll := true }
        "/work").1 :=
  c2_amended _ (some "myapp") _ _ "/work" "myapp" "monolith" rfl rfl rfl
    (by decide) rfl (by decide) (by decide) (by decide)

theorem c6_dry_run_witness :
    (mainRun
      { template := some "bare", architecture := some "nextjs-only",
        help := false, version := false, verbose := false, quiet := true,
        force := false, dryRun := true }
      (some "myapp")
      { nameAnswer := none, archAnswer := none, templateAnswer := none }
      { cmdOk := fun _ _ => true, exists0 := fun _ => false,
        migNames := fun _ => [], confirmAll := true }
      "/work").2 = Outcome.exited 0 ∧
    Ev.plan ∈
      (mainRun
        { template := some "bare", architecture := some "nextjs-only",
          help := false, version := false, verbose := false, quiet := true,
          force := false, dryRun := true }
        (some "myapp")
        { nameAnswer := none, archAnswer := none, templateAnswer := none }
        { cmdOk := fun _ _ => true, exists0 := fun _ => false,
          migNames := fun _ => [], confirmAll := true }
        "/work").1 ∧
    Ev.dirCheck (joinP "/work" "myapp") ∈
      (mainRun
        { template := some "bare", architecture := some "nextjs-only",
          help := false, version := false, verbose := false, quiet := true,
          force := false, dryRun := true }
        (some "myapp")
        { nameAnswer := none, archAnswer := none, templateAnswer := none }
        { cmdOk := fun _ _ => true, exists0 := fun _ => false,
          migNames := fun _ => [], confirmAll := true }
        "/work").1 ∧
    effectFree
      (mainRun
        { template := some "bare", architecture := some "nextjs-only",
          help := false, version := false, verbose := false, quiet := true,
          force := false, dryRun := true }
        (some "myapp")
        { nameAnswer := none, archAnswer := none, templateAnswer := none }
        { cmdOk := fun _ _ => true, exists0 := fun _ => false,
          migNames := fun _ => [], confirmAll := true }
        "/work").1 :=
  (c6_dry_run _ (some "myapp") _ _ "/work" "myapp" "nextjs-only" "bare"
    rfl rfl rfl (Or.inl ⟨rfl, by decide⟩) (Or.inl rfl) (Or.inr rfl)
    (Or.inl rfl) (Or.inl rfl)).2 (Or.inl rfl)

/-- C3 amended: a zero-match migration-file lookup makes
`createSupabaseMigration` return `false`, but in both flows the caller only
uses that value to decide a log line — the run does NOT abort: the config
patch, deployment guide, manifest scripts and README steps all still
execute and the flow completes. -/
theorem c3_amended (w : World) (root n : String)
    (hc : ∀ d c, w.cmdOk d c = true)
    (he : ∀ p, w.exists0 p = true)
    (hmA : w.migNames (joinP root n) = [])
    (hmB : w.migNames (joinP (joinP (joinP root n) "apps") "web") = []) :
    (migrationPick (w.migNames (joinP root n)) = none ∧
     (createWebOnlyApp w root n "bare").2 = true ∧
     Ev.cmd (joinP root n) Cmd.migrationNew ∈ (createWebOnlyApp w root n "bare").1 ∧
     Ev.write (joinP (joinP root n) "COOLIFY_DEPLOYMENT.md") ∈
       (createWebOnlyApp w root n "bare").1 ∧
     Ev.write (joinP (joinP root n) "README.md") ∈ (createWebOnlyApp w root n "bare").1 ∧
     Ev.write (configTomlPath (joinP root n)) ∈ (createWebOnlyApp w root n "bare").1) ∧
    (migrationPick (w.migNames (joinP (joinP (joinP root n) "apps") "web")) = none ∧
     (createMonorepo w root n "bare").2 = true ∧
     Ev.cmd (joinP (joinP (joinP root n) "apps") "web") Cmd.migrationNew ∈
       (createMonorepo w root n "bare").1 ∧
     Ev.write (joinP (joinP root n) "COOLIFY_DEPLOYMENT.md") ∈
       (createMonorepo w root n "bare").1 ∧
     Ev.write (joinP (joinP root n) "README.md") ∈ (createMonorepo w root n "bare").1 ∧
     Ev.write (configTomlPath (joinP (joinP (joinP root n) "apps") "web")) ∈
       (createMonorepo w root n "bare").1) := by
  constructor
  · refine ⟨by rw [hmA]; rfl, ?_, ?_, ?_, ?_, ?_⟩ <;>
      simp [createWebOnlyApp, detectPackageManager, setupSupabase, runCommand,
        createEnvFile, createSupabaseClient, createNextjsMiddleware, setupSupabaseTypes,
        createSupabaseMigrationRun, updateSupabaseConfigRun, createCoolifyConfig,
        updatePackageJsonScripts, createProjectReadme, createProjectClaudeMd,
        migrationPick, migrationFilter, sortJS, hc, he, hmA]
  · refine ⟨by rw [hmB]; rfl, ?_, ?_, ?_, ?_, ?_⟩ <;>
      simp [createMonorepo, createPnpmWorkspace, createSharedPackage, createRootTsConfig,
        setupSupabase, runCommand, createEnvFile, createSupabaseClient,
        createNextjsMiddleware, setupSupabaseTypes, configureNextjsForMonorepo,
        setupExpoRouter, configureExpoForMonorepo, createSupabaseMigrationRun,
        updateSupabaseConfigRun, createCoolifyConfig, updatePackageJsonScripts,
        createProjectReadme, createProjectClaudeMd, migrationPick, migrationFilter,
        sortJS, hc, he, hmB]

/-- C4 amended: the backend client library install
(`pnpm add @supabase/supabase-js @supabase/ssr server-only`) is a required
step only in the single-app flow (its failure throws and no later step
runs); in the monorepo flow the same install's result is ignored and the
run continues to completion. -/
theorem c4_amended (w : World) (root n : String)
    (hc : ∀ d c, c ≠ Cmd.pnpmAddSupabase → w.cmdOk d c = true)
    (he : ∀ p, w.exists0 p = true)
    (hm : ∀ p, w.migNames p = ["20240101000000_initial_setup.sql"])
    (hfA : w.cmdOk (joinP root n) Cmd.pnpmAddSupabase = false)
    (hfB : w.cmdOk (joinP (joinP (joinP root n) "apps") "web") Cmd.pnpmAddSupabase = false) :
    ((createWebOnlyApp w root n "bare").2 = false ∧
     Ev.cmd (joinP root n) Cmd.pnpmAddSupabase ∈ (createWebOnlyApp w root n "bare").1 ∧
     Ev.write (joinP (joinP root n) "COOLIFY_DEPLOYMENT.md") ∉
       (createWebOnlyApp w root n "bare").1) ∧
    ((createMonorepo w root n "bare").2 = true ∧
     Ev.cmd (joinP (joinP (joinP root n) "apps") "web") Cmd.pnpmAddSupabase ∈
       (createMonorepo w root n "bare").1 ∧
     Ev.write (joinP (joinP root n) "COOLIFY_DEPLOYMENT.md") ∈
       (createMonorepo w root n "bare").1) := by
  constructor
  · refine ⟨?_, ?_, ?_⟩ <;>
      simp [createWebOnlyApp, detectPackageManager, setupSupabase, runCommand,
        hc, he, hfA]
  · refine ⟨?_, ?_, ?_⟩ <;>
      simp [createMonorepo, createPnpmWorkspace, createSharedPackage, createRootTsConfig,
        setupSupabase, runCommand, createEnvFile, createSupabaseClient,
        createNextjsMiddleware, setupSupabaseTypes, configureNextjsForMonorepo,
        setupExpoRouter, configureExpoForMonorepo, createSupabaseMigrationRun,
        updateSupabaseConfigRun, createCoolifyConfig, updatePackageJsonScripts,
        createProjectReadme, createProjectClaudeMd, migrationPick, migrationFilter,
        sortJS, insertSorted, hc, he, hm, hfB]

theorem fdelete_nmem_detectPackageManager (w : World) (cwd q : String) :
    Ev.fdelete q ∉ detectPackageManager w cwd := by
  unfold detectPackageManager
  split <;> try split
  all_goals try split
  all_goals try split
  all_goals simp

theorem fdelete_nmem_setupShadcn (w : World) (p q : String) (b : Bool) :
    Ev.fdelete q ∉ (setupShadcn w p b).1 := by
  unfold setupShadcn runCommand
  rcases h1 : w.cmdOk p Cmd.shadcnInit with _ | _ <;> cases b <;> simp [h1]

theorem fdelete_nmem_setupLegendState (w : World) (p q : String) (b : Bool) :
    Ev.fdelete q ∉ (setupLegendState w p b).1 := by
  cases b <;>
    (unfold setupLegendState runCommand
     rcases h3 : w.exists0 (joinP p "stores") with _ | _ <;>
       rcases h4 : w.exists0 (joinP p "types") with _ | _ <;>
       simp [h3, h4] <;>
       split <;> simp)

theorem fdelete_nmem_setupReactNativeReusables (w : World) (p q : String) :
    Ev.fdelete q ∉ (setupReactNativeReusables w p).1 := by
  unfold setupReactNativeReusables runCommand
  rcases h1 : w.cmdOk p Cmd.reusablesAddAll with _ | _ <;>
    rcases h2 : w.cmdOk p Cmd.expoInstallReusablesFallback with _ | _ <;>
    rcases h3 : w.exists0 (joinP (joinP p "src") "lib") with _ | _ <;>
    rcases h4 : w.exists0 (joinP (joinP (joinP p "src") "components") "ui") with _ | _ <;>
    simp [h1, h2, h3, h4]

theorem fdelete_nmem_createSupabaseMigrationRun (w : World) (p q : String) :
    Ev.fdelete q ∉ (createSupabaseMigrationRun w p).1 := by
  unfold createSupabaseMigrationRun runCommand
  rcases h1 : w.cmdOk p Cmd.migrationNew with _ | _ <;>
    rcases h2 : migrationPick (w.migNames p) with _ | m <;>
    simp [h1, h2]

theorem fdelete_mem_setupExpoRouter (w : World) (p q : String)
    (h : Ev.fdelete q ∈ (setupExpoRouter w p).1) :
    q = joinP p "App.js" ∨ q = joinP p "App.tsx" := by
  unfold setupExpoRouter runCommand at h
  rcases hc1 : w.cmdOk p Cmd.pnpmAddExpoSdk with _ | _ <;>
    rcases hc2 : w.cmdOk p Cmd.expoInstallRouterDeps with _ | _ <;>
    rcases hpk : w.exists0 (joinP p "package.json") with _ | _ <;>
    rcases haj : w.exists0 (joinP p "app.json") with _ | _ <;>
    rcases hjs : w.exists0 (joinP p "App.js") with _ | _ <;>
    rcases htsx : w.exists0 (joinP p "App.tsx") with _ | _ <;>
    simp [hc1, hc2, hpk, haj, hjs, htsx] at h <;>
    tauto

theorem fdelete_nmem_createSupabaseClient (w : World) (p q : String) (b : Bool) :
    Ev.fdelete q ∉ createSupabaseClient w p b := by
  unfold createSupabaseClient
  rcases h : w.exists0 (joinP p "lib") with _ | _ <;> cases b <;> simp [h]

theorem fdelete_nmem_setupSupabaseTypes (w : World) (p q : String) :
    Ev.fdelete q ∉ setupSupabaseTypes w p := by
  unfold setupSupabaseTypes
  rcases h : w.exists0 (joinP p "types") with _ | _ <;> simp [h]

theorem fdelete_nmem_updatePackageJsonScripts (w : World) (p q : String) :
    Ev.fdelete q ∉ updatePackageJsonScripts w p := by
  unfold updatePackageJsonScripts
  rcases h : w.exists0 (joinP p "package.json") with _ | _ <;> simp [h]

theorem fdelete_nmem_updateSupabaseConfigRun (w : World) (p q : String) :
    Ev.fdelete q ∉ (updateSupabaseConfigRun w p).1 := by
  unfold updateSupabaseConfigRun
  rcases h : w.exists0 (configTomlPath p) with _ | _ <;> simp [h]

/-- Deletions of the monorepo flow are exactly the Expo-router cleanup of
the mobile template's `App.js` / `App.tsx`. -/
theorem fdelete_mem_createMonorepo (w : World) (root n t q : String)
    (hq : Ev.fdelete q ∈ (createMonorepo w root n t).1) :
    q = joinP (joinP (joinP (joinP root n) "apps") "mobile") "App.js" ∨
    q = joinP (joinP (joinP (joinP root n) "apps") "mobile") "App.tsx" := by
  rcases h6 : setupExpoRouter w (joinP (joinP (joinP root n) "apps") "mobile")
    with ⟨e6, ok6⟩
  have hchar : Ev.fdelete q ∈ e6 →
      q = joinP (joinP (joinP (joinP root n) "apps") "mobile") "App.js" ∨
      q = joinP (joinP (joinP (joinP root n) "apps") "mobile") "App.tsx" := by
    intro hmem
    apply fdelete_mem_setupExpoRouter w _ q
    rw [h6]
    exact hmem
  rcases h1 : w.cmdOk root (Cmd.mkdirProject n) with _ | _ <;>
    rcases h3 : w.cmdOk (joinP root n) Cmd.createNextAppMono with _ | _ <;>
    rcases h5 : w.cmdOk (joinP (joinP root n) "apps") Cmd.createExpoApp with _ | _ <;>
    rcases ok6 with _ | _ <;>
    by_cases ht : t = "opinionated" <;>
    simp [createMonorepo, runCommand, h1, h3, h5, h6, ht,
      createPnpmWorkspace, createSharedPackage, createRootTsConfig,
      createEnvFile, createNextjsMiddleware, configureNextjsForMonorepo,
      configureExpoForMonorepo, createCoolifyConfig, createProjectReadme,
      createProjectClaudeMd, setupSupabase, setupPrettierAndESLint,
      fdelete_nmem_detectPackageManager, fdelete_nmem_setupShadcn,
      fdelete_nmem_setupLegendState, fdelete_nmem_setupReactNativeReusables,
      fdelete_nmem_createSupabaseMigrationRun, fdelete_nmem_createSupabaseClient,
      fdelete_nmem_setupSupabaseTypes, fdelete_nmem_updatePackageJsonScripts,
      fdelete_nmem_updateSupabaseConfigRun] at hq <;>
    exact hchar hq

/-- The single-app flow performs no deletion at all. -/
theorem fdelete_nmem_createWebOnlyApp (w : World) (root n t q : String) :
    Ev.fdelete q ∉ (createWebOnlyApp w root n t).1 := by
  intro hq
  rcases h1 : w.cmdOk root (Cmd.createNextAppSolo n) with _ | _ <;>
    rcases h2 : w.cmdOk (joinP root n) Cmd.pnpmAddSupabase with _ | _ <;>
    by_cases ht : t = "opinionated" <;>
    simp [createWebOnlyApp, setupSupabase, runCommand, createEnvFile, h2,
      createNextjsMiddleware, createCoolifyConfig, createProjectReadme,
      createProjectClaudeMd, h1, ht,
      fdelete_nmem_detectPackageManager, fdelete_nmem_setupShadcn,
      fdelete_nmem_setupLegendState, fdelete_nmem_createSupabaseMigrationRun,
      fdelete_nmem_createSupabaseClient, fdelete_nmem_setupSupabaseTypes,
      fdelete_nmem_updatePackageJsonScripts, fdelete_nmem_updateSupabaseConfigRun,
      setupPrettierAndESLint] at hq

/-- C5 amended: the provisioning flows are purely additive — creating
directories and creating/overwriting files — except that the Expo-router
setup step of the monorepo flow deletes the mobile template's old `App.js`
and `App.tsx` when they exist; the single-app flow performs no deletion at
all. -/
theorem c5_amended (w : World) (root n t : String) :
    (∀ q, Ev.fdelete q ∈ (createMonorepo w root n t).1 →
       q = joinP (joinP (joinP (joinP root n) "apps") "mobile") "App.js" ∨
       q = joinP (joinP (joinP (joinP root n) "apps") "mobile") "App.tsx") ∧
    ∀ q, Ev.fdelete q ∉ (createWebOnlyApp w root n t).1 :=
  ⟨fun q hq => fdelete_mem_createMonorepo w root n t q hq,
   fun q => fdelete_nmem_createWebOnlyApp w root n t q⟩

/-- C3 counterexample: with the migrations directory listing empty (the
lookup finds zero matches), the single-app flow still completes and the
subsequent deployment-guide step executes — the run does not abort. -/
theorem c3_counterexample :
    migrationPick [] = none ∧
    (createWebOnlyApp
      { cmdOk := fun _ _ => true, exists0 := fun _ => true,
        migNames := fun _ => [], confirmAll := true } "/w" "app" "bare").2 = true ∧
    Ev.cmd (joinP "/w" "app") Cmd.migrationNew ∈
      (createWebOnlyApp
        { cmdOk := fun _ _ => true, exists0 := fun _ => true,
          migNames := fun _ => [], confirmAll := true } "/w" "app" "bare").1 ∧
    Ev.write (joinP (joinP "/w" "app") "COOLIFY_DEPLOYMENT.md") ∈
      (createWebOnlyApp
        { cmdOk := fun _ _ => true, exists0 := fun _ => true,
          migNames := fun _ => [], confirmAll := true } "/w" "app" "bare").1 := by
  refine ⟨rfl, ?_, ?_, ?_⟩ <;> decide

theorem c3_amended_witness :
    (createWebOnlyApp
      { cmdOk := fun _ _ => true, exists0 := fun _ => true,
        migNames := fun _ => [], confirmAll := true } "/w" "app" "bare").2 = true ∧
    (createMonorepo
      { cmdOk := fun _ _ => true, exists0 := fun _ => true,
        migNames := fun _ => [], confirmAll := true } "/w" "app" "bare").2 = true ∧
    Ev.write (joinP (joinP "/w" "app") "README.md") ∈
      (createMonorepo
        { cmdOk := fun _ _ => true, exists0 := fun _ => true,
          migNames := fun _ => [], confirmAll := true } "/w" "app" "bare").1 := by
  have h := c3_amended
    { cmdOk := fun _ _ => true, exists0 := fun _ => true,
      migNames := fun _ => [], confirmAll := true } "/w" "app"
    (fun _ _ => rfl) (fun _ => rfl) rfl rfl
  exact ⟨h.1.2.1, h.2.2.1, h.2.2.2.2.2.1⟩

/-- C4 counterexample: with every command succeeding except the
`pnpm add @supabase/supabase-js @supabase/ssr server-only` install of the
web app, the monorepo flow still completes and the deployment-guide step
still runs — the failure does not abort the monorepo flow. -/
theorem c4_counterexample :
    (createMonorepo
      { cmdOk := fun d c => !(c = Cmd.pnpmAddSupabase &&
          (d = "/w/app" || d = "/w/app/apps/web")),
        exists0 := fun _ => true,
        migNames := fun _ => ["20240101000000_initial_setup.sql"],
        confirmAll := true } "/w" "app" "bare").2 = true ∧
    Ev.cmd (joinP (joinP (joinP "/w" "app") "apps") "web") Cmd.pnpmAddSupabase ∈
      (createMonorepo
        { cmdOk := fun d c => !(c = Cmd.pnpmAddSupabase &&
            (d = "/w/app" || d = "/w/app/apps/web")),
          exists0 := fun _ => true,
          migNames := fun _ => ["20240101000000_initial_setup.sql"],
          confirmAll := true } "/w" "app" "bare").1 ∧
    Ev.write (joinP (joinP "/w" "app") "COOLIFY_DEPLOYMENT.md") ∈
      (createMonorepo
        { cmdOk := fun d c => !(c = Cmd.pnpmAddSupabase &&
            (d = "/w/app" || d = "/w/app/apps/web")),
          exists0 := fun _ => true,
          migNames := fun _ => ["20240101000000_initial_setup.sql"],
          confirmAll := true } "/w" "app" "bare").1 := by
  refine ⟨?_, ?_, ?_⟩ <;> decide

theorem c4_amended_witness :
    (createWebOnlyApp
      { cmdOk := fun d c => !(c = Cmd.pnpmAddSupabase &&
          (d = "/w/app" || d = "/w/app/apps/web")),
        exists0 := fun _ => true,
        migNames := fun _ => ["20240101000000_initial_setup.sql"],
        confirmAll := true } "/w" "app" "bare").2 = false ∧
    Ev.write (joinP (joinP "/w" "app") "COOLIFY_DEPLOYMENT.md") ∉
      (createWebOnlyApp
        { cmdOk := fun d c => !(c = Cmd.pnpmAddSupabase &&
            (d = "/w/app" || d = "/w/app/apps/web")),
          exists0 := fun _ => true,
          migNames := fun _ => ["20240101000000_initial_setup.sql"],
          confirmAll := true } "/w" "app" "bare").1 ∧
    (createMonorepo
      { cmdOk := fun d c => !(c = Cmd.pnpmAddSupabase &&
          (d = "/w/app" || d = "/w/app/apps/web")),
        exists0 := fun _ => true,
        migNames := fun _ => ["20240101000000_initial_setup.sql"],
        confirmAll := true } "/w" "app" "bare").2 = true := by
  have h := c4_amended
    { cmdOk := fun d c => !(c = Cmd.pnpmAddSupabase &&
        (d = "/w/app" || d = "/w/app/apps/web")),
      exists0 := fun _ => true,
      migNames := fun _ => ["20240101000000_initial_setup.sql"],
      confirmAll := true } "/w" "app"
    (fun d c hc => by simp [decide_eq_false hc]) (fun _ => rfl) (fun _ => rfl)
    (by decide) (by decide)
  exact ⟨h.1.1, h.1.2.2, h.2.1⟩

/-- C5 counterexample: the monorepo flow, in a world where the Expo template
created the old `App.tsx`, emits an `unlinkSync` deletion of that file — the
system is not purely additive. -/
theorem c5_counterexample :
    Ev.fdelete (joinP (joinP (joinP (joinP "/w" "app") "apps") "mobile") "App.tsx") ∈
      (createMonorepo
        { cmdOk := fun _ _ => true, exists0 := fun _ => true,
          migNames := fun _ => ["20240101000000_initial_setup.sql"], confirmAll := true }
        "/w" "app" "bare").1 := by decide

theorem c5_amended_witness :
    (joinP (joinP (joinP (joinP "/w" "app") "apps") "mobile") "App.js" =
       joinP (joinP (joinP (joinP "/w" "app") "apps") "mobile") "App.js" ∨
     joinP (joinP (joinP (joinP "/w" "app") "apps") "mobile") "App.js" =
       joinP (joinP (joinP (joinP "/w" "app") "apps") "mobile") "App.tsx") ∧
    Ev.fdelete "/w/app/App.tsx" ∉
      (createWebOnlyApp
        { cmdOk := fun _ _ => true, exists0 := fun _ => true,
          migNames := fun _ => [], confirmAll := true } "/w" "app" "bare").1 := by
  constructor
  · exact (c5_amended
      { cmdOk := fun _ _ => true, exists0 := fun _ => true,
        migNames := fun _ => ["20240101000000_initial_setup.sql"], confirmAll := true }
      "/w" "app" "bare").1
      (joinP (joinP (joinP (joinP "/w" "app") "apps") "mobile") "App.js") (by decide)
  · exact (c5_amended
      { cmdOk := fun _ _ => true, exists0 := fun _ => true,
        migNames := fun _ => [], confirmAll := true } "/w" "app" "bare").2
      "/w/app/App.tsx"
theorem allGen_detectPackageManager (w : World) (cwd : String) :
    (detectPackageManager w cwd).all genEvent = true := by
  unfold detectPackageManager
  split <;> try split
  all_goals try split
  all_goals try split
  all_goals simp [genEvent]

theorem allGen_setupShadcn (w : World) (p : String) (b : Bool) :
    (setupShadcn w p b).1.all genEvent = true := by
  unfold setupShadcn runCommand
  rcases h1 : w.cmdOk p Cmd.shadcnInit with _ | _ <;> cases b <;> simp [genEvent, h1]

theorem allGen_setupLegendState (w : World) (p : String) (b : Bool) :
    (setupLegendState w p b).1.all genEvent = true := by
  cases b <;>
    (unfold setupLegendState runCommand
     rcases h3 : w.exists0 (joinP p "stores") with _ | _ <;>
       rcases h4 : w.exists0 (joinP p "types") with _ | _ <;>
       simp [genEvent, h3, h4] <;> split <;> simp [genEvent])

theorem allGen_setupReactNativeReusables (w : World) (p : String) :
    (setupReactNativeReusables w p).1.all genEvent = true := by
  unfold setupReactNativeReusables runCommand
  rcases h1 : w.cmdOk p Cmd.reusablesAddAll with _ | _ <;>
    rcases h2 : w.cmdOk p Cmd.expoInstallReusablesFallback with _ | _ <;>
    rcases h3 : w.exists0 (joinP (joinP p "src") "lib") with _ | _ <;>
    rcases h4 : w.exists0 (joinP (joinP (joinP p "src") "components") "ui") with _ | _ <;>
    simp [genEvent, h1, h2, h3, h4]

theorem allGen_createSupabaseMigrationRun (w : World) (p : String) :
    (createSupabaseMigrationRun w p).1.all genEvent = true := by
  unfold createSupabaseMigrationRun runCommand
  rcases h1 : w.cmdOk p Cmd.migrationNew with _ | _ <;>
    rcases h2 : migrationPick (w.migNames p) with _ | m <;>
    simp [genEvent, h1, h2]

theorem allGen_setupExpoRouter (w : World) (p : String) :
    (setupExpoRouter w p).1.all genEvent = true := by
  unfold setupExpoRouter runCommand
  rcases hc1 : w.cmdOk p Cmd.pnpmAddExpoSdk with _ | _ <;>
    rcases hc2 : w.cmdOk p Cmd.expoInstallRouterDeps with _ | _ <;>
    rcases hpk : w.exists0 (joinP p "package.json") with _ | _ <;>
    rcases haj : w.exists0 (joinP p "app.json") with _ | _ <;>
    rcases hjs : w.exists0 (joinP p "App.js") with _ | _ <;>
    rcases htsx : w.exists0 (joinP p "App.tsx") with _ | _ <;>
    simp [genEvent, hc1, hc2, hpk, haj, hjs, htsx]

theorem allGen_createSupabaseClient (w : World) (p : String) (b : Bool) :
    (createSupabaseClient w p b).all genEvent = true := by
  unfold createSupabaseClient
  rcases h : w.exists0 (joinP p "lib") with _ | _ <;> cases b <;> simp [genEvent, h]

theorem allGen_setupSupabaseTypes (w : World) (p : String) :
    (setupSupabaseTypes w p).all genEvent = true := by
  unfold setupSupabaseTypes
  rcases h : w.exists0 (joinP p "types") with _ | _ <;> simp [genEvent, h]

theorem allGen_updatePackageJsonScripts (w : World) (p : String) :
    (updatePackageJsonScripts w p).all genEvent = true := by
  unfold updatePackageJsonScripts
  rcases h : w.exists0 (joinP p "package.json") with _ | _ <;> simp [genEvent, h]

theorem allGen_updateSupabaseConfigRun (w : World) (p : String) :
    (updateSupabaseConfigRun w p).1.all genEvent = true := by
  unfold updateSupabaseConfigRun
  rcases h : w.exists0 (configTomlPath p) with _ | _ <;> simp [genEvent, h]

theorem allGen_createMonorepo (w : World) (root n t : String) :
    (createMonorepo w root n t).1.all genEvent = true := by
  rcases h1 : w.cmdOk root (Cmd.mkdirProject n) with _ | _ <;>
    rcases h3 : w.cmdOk (joinP root n) Cmd.createNextAppMono with _ | _ <;>
    rcases h5 : w.cmdOk (joinP (joinP root n) "apps") Cmd.createExpoApp with _ | _ <;>
    rcases h6 : setupExpoRouter w (joinP (joinP (joinP root n) "apps") "mobile")
      with ⟨e6, ok6⟩ <;>
    rcases ok6 with _ | _ <;>
    by_cases ht : t = "opinionated" <;>
    (have ha6 := allGen_setupExpoRouter w (joinP (joinP (joinP root n) "apps") "mobile")
     rw [h6] at ha6
     simp [createMonorepo, runCommand, h1, h3, h5, h6, ht, ha6,
       createPnpmWorkspace, createSharedPackage, createRootTsConfig,
       createEnvFile, createNextjsMiddleware, configureNextjsForMonorepo,
       configureExpoForMonorepo, createCoolifyConfig, createProjectReadme,
       createProjectClaudeMd, setupSupabase, setupPrettierAndESLint, genEvent,
       allGen_setupShadcn, allGen_setupLegendState, allGen_setupReactNativeReusables,
       allGen_createSupabaseMigrationRun, allGen_createSupabaseClient,
       allGen_setupSupabaseTypes, allGen_updatePackageJsonScripts,
       allGen_updateSupabaseConfigRun])

theorem allGen_createWebOnlyApp (w : World) (root n t : String) :
    (createWebOnlyApp w root n t).1.all genEvent = true := by
  rcases h1 : w.cmdOk root (Cmd.createNextAppSolo n) with _ | _ <;>
    rcases h2 : w.cmdOk (joinP root n) Cmd.pnpmAddSupabase with _ | _ <;>
    by_cases ht : t = "opinionated" <;>
    simp [createWebOnlyApp, setupSupabase, runCommand, createEnvFile,
      createNextjsMiddleware, createCoolifyConfig, createProjectReadme,
      createProjectClaudeMd, h1, h2, ht, genEvent,
      allGen_detectPackageManager, allGen_setupShadcn, allGen_setupLegendState,
      allGen_createSupabaseMigrationRun, allGen_createSupabaseClient,
      allGen_setupSupabaseTypes, allGen_updatePackageJsonScripts,
      allGen_updateSupabaseConfigRun, setupPrettierAndESLint]

theorem resolveAppName_trace (f : Flags) (pos : Option String) (i : Answers) :
    (resolveAppName f pos i).1 = [] ∨
    (resolveAppName f pos i).1 = [Ev.prompt PKind.nameText] := by
  unfold resolveAppName promptForName
  rcases pos with _ | n
  · rcases hq : f.quiet with _ | _ <;> rcases i.nameAnswer with _ | m <;> simp [hq]
  · by_cases hn : n = "" <;> rcases hq : f.quiet with _ | _ <;>
      rcases i.nameAnswer with _ | m <;> simp [hn, hq]

theorem resolveArch_trace (f : Flags) (i : Answers) :
    (resolveArch f i).1 = [] ∨ (resolveArch f i).1 = [Ev.prompt PKind.archSelect] := by
  unfold resolveArch
  rcases f.architecture with _ | a
  · rcases hq : f.quiet with _ | _ <;> rcases i.archAnswer with _ | m <;> simp [hq]
  · by_cases h0 : a = "" <;> rcases hq : f.quiet with _ | _ <;>
      rcases i.archAnswer with _ | m <;> simp [h0, hq]

theorem resolveTemplate_trace (f : Flags) (i : Answers) :
    (resolveTemplate f i).1 = [] ∨
    (resolveTemplate f i).1 = [Ev.prompt PKind.templateSelect] := by
  unfold resolveTemplate
  rcases f.template with _ | a
  · rcases hq : f.quiet with _ | _ <;> rcases i.templateAnswer with _ | m <;> simp [hq]
  · by_cases h0 : a = "" <;> rcases hq : f.quiet with _ | _ <;>
      rcases i.templateAnswer with _ | m <;> simp [h0, hq]

theorem directoryGuard_trace (f : Flags) (root n : String) (w : World) :
    (directoryGuard f root n w).1 = [Ev.dirCheck (joinP root n)] ∨
    (directoryGuard f root n w).1 = [Ev.dirCheck (joinP root n), Ev.warnForce] := by
  unfold directoryGuard
  split
  · split
    · simp
    · split <;> simp
  · simp

theorem directoryGuard_warn_mem (f : Flags) (root n : String) (w : World)
    (hex : w.exists0 (joinP root n) = true) (hf : f.force = true) :
    Ev.warnForce ∈ (directoryGuard f root n w).1 ↔
      f.verbose = true ∧ f.quiet = false := by
  unfold directoryGuard
  rw [hex, hf]
  rcases hvb : f.verbose with _ | _ <;> rcases hq : f.quiet with _ | _ <;>
    simp [hvb, hq]

theorem fdelete_mem_mainRun (f : Flags) (pos : Option String) (i : Answers) (w : World)
    (root q : String) (h : Ev.fdelete q ∈ (mainRun f pos i w root).1) :
    ∃ e1 n, resolveAppName f pos i = (e1, Phase.next n) ∧
      (q = joinP (joinP (joinP (joinP root n) "apps") "mobile") "App.js" ∨
       q = joinP (joinP (joinP (joinP root n) "apps") "mobile") "App.tsx") := by
  unfold mainRun at h
  split at h
  · simp at h
  · split at h
    · simp at h
    · rcases hres : resolveAppName f pos i with ⟨e1, ph⟩
      rw [hres] at h
      have he1 : Ev.fdelete q ∉ e1 := by
        intro hmem
        rcases resolveAppName_trace f pos i with ht | ht <;> rw [hres] at ht <;>
          (dsimp only at ht; subst ht; simp at hmem)
      cases ph with
      | halt o => exact absurd h he1
      | next n =>
        dsimp only at h
        rcases hgd : directoryGuard f root n w with ⟨e2, ph2⟩
        rw [hgd] at h
        have he2 : Ev.fdelete q ∉ e2 := by
          intro hmem
          rcases directoryGuard_trace f root n w with ht | ht <;> rw [hgd] at ht <;>
            (dsimp only at ht; subst ht; simp at hmem)
        cases ph2 with
        | halt o =>
          dsimp only at h
          rcases List.mem_append.mp h with h' | h'
          · exact absurd h' he1
          · exact absurd h' he2
        | next u =>
          dsimp only at h
          rcases harch : resolveArch f i with ⟨e3, ph3⟩
          rw [harch] at h
          have he3 : Ev.fdelete q ∉ e3 := by
            intro hmem
            rcases resolveArch_trace f i with ht | ht <;> rw [harch] at ht <;>
              (dsimp only at ht; subst ht; simp at hmem)
          cases ph3 with
          | halt o =>
            dsimp only at h
            rcases List.mem_append.mp h with h' | h'
            rcases List.mem_append.mp h' with h'' | h''
            · exact absurd h'' he1
            · exact absurd h'' he2
            · exact absurd h' he3
          | next a =>
            dsimp only at h
            rcases htem : resolveTemplate f i with ⟨e4, ph4⟩
            rw [htem] at h
            have he4 : Ev.fdelete q ∉ e4 := by
              intro hmem
              rcases resolveTemplate_trace f i with ht | ht <;> rw [htem] at ht <;>
                (dsimp only at ht; subst ht; simp at hmem)
            cases ph4 with
            | halt o =>
              dsimp only at h
              rcases List.mem_append.mp h with h' | h'
              rcases List.mem_append.mp h' with h'' | h''
              rcases List.mem_append.mp h'' with h3 | h3
              · exact absurd h3 he1
              · exact absurd h3 he2
              · exact absurd h'' he3
              · exact absurd h' he4
            | next t =>
              dsimp only at h
              split at h
              · simp only [List.mem_append, List.mem_singleton] at h
                rcases h with (((h | h) | h) | h) | h
                · exact absurd h he1
                · exact absurd h he2
                · exact absurd h he3
                · exact absurd h he4
                · cases h
              · simp only [List.mem_append, List.mem_cons] at h
                rcases h with (((h | h) | h) | h) | h | h
                · exact absurd h he1
                · exact absurd h he2
                · exact absurd h he3
                · exact absurd h he4
                · cases h
                · by_cases hm : a = "monorepo"
                  · rw [if_pos hm] at h
                    exact ⟨e1, n, rfl, fdelete_mem_createMonorepo w root n t q h⟩
                  · rw [if_neg hm] at h
                    exact absurd h (fdelete_nmem_createWebOnlyApp w root n t q)

/-- C7 amended: when the target directory exists, `force` unset exits 1
before any provisioning effect; with `force` set the guard does not abort
(warning iff verbose and not quiet) and the run reaches step 1 of the
chosen flow provided the remaining axes resolve validly and dry-run is not
set; the run never deletes the target directory itself. -/
theorem c7_amended (f : Flags) (pos : Option String) (i : Answers) (w : World)
    (root n a t : String)
    (hv : f.version = false) (hh : f.help = false)
    (hn : pos = some n ∧ n ≠ "" ∨
      (pos = none ∨ pos = some "") ∧ f.quiet = false ∧ i.nameAnswer = some n)
    (hex : w.exists0 (joinP root n) = true) :
    (f.force = false →
       (mainRun f pos i w root).2 = Outcome.exited 1 ∧
       effectFree (mainRun f pos i w root).1) ∧
    (f.force = true → f.dryRun = false →
       (f.architecture = some a ∨
         f.architecture = none ∧ f.quiet = false ∧ i.archAnswer = some a) →
       (a = "monorepo" ∨ a = "nextjs-only") →
       (f.template = some t ∨
         f.template = none ∧ f.quiet = false ∧ i.templateAnswer = some t) →
       (t = "bare" ∨ t = "opinionated") →
       Ev.gen a ∈ (mainRun f pos i w root).1 ∧
       (Ev.warnForce ∈ (mainRun f pos i w root).1 ↔
         f.verbose = true ∧ f.quiet = false)) ∧
    Ev.fdelete (joinP root n) ∉ (mainRun f pos i w root).1 := by
  have hname := resolveAppName_cases f pos i n hn
  refine ⟨?_, ?_, ?_⟩
  · intro hforce
    have hgd : directoryGuard f root n w =
        ([Ev.dirCheck (joinP root n)], Phase.halt (Outcome.exited 1)) := by
      unfold directoryGuard
      rw [hex, hforce]
      simp
    unfold mainRun
    rw [hv, hh]
    simp only [Bool.false_eq_true, if_false]
    rcases hname with h1 | h1 <;>
      rw [h1] <;> dsimp only <;> rw [hgd] <;> dsimp only <;>
      refine ⟨rfl, ?_⟩ <;>
      (simp only [List.cons_append, List.nil_append, List.append_nil]
       repeat (first | exact effectFree_nil | refine effectFree_cons _ _ rfl ?_))
  · intro hf hd ha haV ht htV
    have ha0 : a ≠ "" := by rcases haV with rfl | rfl <;> decide
    have ht0 : t ≠ "" := by rcases htV with rfl | rfl <;> decide
    have harch := resolveArch_cases f i a (by
      rcases ha with h | h
      · exact Or.inl ⟨h, ha0⟩
      · exact Or.inr h)
    have htempl := resolveTemplate_cases f i t (by
      rcases ht with h | h
      · exact Or.inl ⟨h, ht0⟩
      · exact Or.inr h)
    rw [validateArch_valid a haV] at harch
    rw [validateTemplate_valid t htV] at htempl
    have hwarn := directoryGuard_warn_mem f root n w hex hf
    have hgd2 : (directoryGuard f root n w).2 = Phase.next () := by
      unfold directoryGuard
      rw [hex, hf]
      rcases hvb : (f.verbose && !f.quiet) with _ | _ <;> simp [hvb]
    have hGw : Ev.warnForce ∉
        (if a = "monorepo" then createMonorepo w root n t
         else createWebOnlyApp w root n t).1 := by
      intro hm
      by_cases hmono : a = "monorepo"
      · rw [if_pos hmono] at hm
        have := List.all_eq_true.mp (allGen_createMonorepo w root n t) _ hm
        simp [genEvent] at this
      · rw [if_neg hmono] at hm
        have := List.all_eq_true.mp (allGen_createWebOnlyApp w root n t) _ hm
        simp [genEvent] at this
    rcases hgde : directoryGuard f root n w with ⟨e2, ph2⟩
    rw [hgde] at hwarn hgd2
    dsimp only at hwarn hgd2
    subst hgd2
    unfold mainRun
    rw [hv, hh]
    simp only [Bool.false_eq_true, if_false]
    rcases hname with h1 | h1 <;>
      rw [h1] <;> dsimp only <;> rw [hgde] <;> dsimp only <;>
      rcases harch with h3 | h3 <;> rw [h3] <;> dsimp only <;>
      rcases htempl with h4 | h4 <;> rw [h4] <;> dsimp only <;>
      rw [hd] <;> simp only [Bool.false_eq_true, if_false] <;>
      refine ⟨by simp, ?_⟩ <;>
      (rw [show (Ev.warnForce ∈ _) ↔ Ev.warnForce ∈ e2 from by simp [hGw]]
       exact hwarn)
  · intro hdel
    rcases fdelete_mem_mainRun f pos i w root (joinP root n) hdel with ⟨e1, n2, hres, hq⟩
    have hnn : n2 = n := by
      rcases hname with h2 | h2 <;> rw [hres] at h2 <;>
        (simp only [Prod.mk.injEq, Phase.next.injEq] at h2; exact h2.2)
    subst hnn
    rcases hq with hq | hq <;>
      (have hlen := congrArg String.length hq
       simp only [joinP, String.length_append,
         show ("/" : String).length = 1 from rfl,
         show ("apps" : String).length = 4 from rfl,
         show ("mobile" : String).length = 6 from rfl,
         show ("App.js" : String).length = 6 from rfl,
         show ("App.tsx" : String).length = 7 from rfl] at hlen
       omega)

/-- C7 counterexample: with the target directory existing and `force` set,
a run that also sets `--dry-run` exits 0 without ever reaching step 1 of
the chosen flow — refuting "directory-exists + force=true always proceeds
to step 1 of the chosen flow". -/
theorem c7_counterexample :
    (mainRun
      { template := some "bare", architecture := some "nextjs-only",
        help := false, version := false, verbose := false, quiet := false,
        force := true, dryRun := true }
      (some "app")
      { nameAnswer := none, archAnswer := none, templateAnswer := none }
      { cmdOk := fun _ _ => true, exists0 := fun _ => true,
        migNames := fun _ => [], confirmAll := true }
      "/w").2 = Outcome.exited 0 ∧
    Ev.gen "nextjs-only" ∉
      (mainRun
        { template := some "bare", architecture := some "nextjs-only",
          help := false, version := false, verbose := false, quiet := false,
          force := true, dryRun := true }
        (some "app")
        { nameAnswer := none, archAnswer := none, templateAnswer := none }
        { cmdOk := fun _ _ => true, exists0 := fun _ => true,
          migNames := fun _ => [], confirmAll := true }
        "/w").1 ∧
    Ev.gen "monorepo" ∉
      (mainRun
        { template := some "bare", architecture := some "nextjs-only",
          help := false, version := false, verbose := false, quiet := false,
          force := true, dryRun := true }
        (some "app")
        { nameAnswer := none, archAnswer := none, templateAnswer := none }
        { cmdOk := fun _ _ => true, exists0 := fun _ => true,
          migNames := fun _ => [], confirmAll := true }
        "/w").1 ∧
    (∀ c d, Ev.cmd c d ∉
      (mainRun
        { template := some "bare", architecture := some "nextjs-only",
          help := false, version := false, verbose := false, quiet := false,
          force := true, dryRun := true }
        (some "app")
        { nameAnswer := none, archAnswer := none, templateAnswer := none }
        { cmdOk := fun _ _ => true, exists0 := fun _ => true,
          migNames := fun _ => [], confirmAll := true }
        "/w").1) := by
  refine ⟨by decide, by decide, by decide, ?_⟩
  intro c d hm
  simp [mainRun, resolveAppName, directoryGuard, resolveArch, resolveTemplate,
    validateArch, validateTemplate] at hm

theorem c7_amended_witness :
    ((mainRun
      { template := some "bare", architecture := some "nextjs-only",
        help := false, version := false, verbose := false, quiet := false,
        force := false, dryRun := false }
      (some "app")
      { nameAnswer := none, archAnswer := none, templateAnswer := none }
      { cmdOk := fun _ _ => true, exists0 := fun _ => true,
        migNames := fun _ => ["20240101000000_initial_setup.sql"], confirmAll := true }
      "/w").2 = Outcome.exited 1 ∧
     effectFree
      (mainRun
        { template := some "bare", architecture := some "nextjs-only",
          help := false, version := false, verbose := false, quiet := false,
          force := false, dryRun := false }
        (some "app")
        { nameAnswer := none, archAnswer := none, templateAnswer := none }
        { cmdOk := fun _ _ => true, exists0 := fun _ => true,
          migNames := fun _ => ["20240101000000_initial_setup.sql"], confirmAll := true }
        "/w").1) ∧
    Ev.gen "nextjs-only" ∈
      (mainRun
        { template := some "bare", architecture := some "nextjs-only",
          help := false, version := false, verbose := false, quiet := false,
          force := true, dryRun := false }
        (some "app")
        { nameAnswer := none, archAnswer := none, templateAnswer := none }
        { cmdOk := fun _ _ => true, exists0 := fun _ => true,
          migNames := fun _ => ["20240101000000_initial_setup.sql"], confirmAll := true }
        "/w").1 ∧
    Ev.fdelete (joinP "/w" "app") ∉
      (mainRun
        { template := some "bare", architecture := some "nextjs-only",
          help := false, version := false, verbose := false, quiet := false,
          force := true, dryRun := false }
        (some "app")
        { nameAnswer := none, archAnswer := none, templateAnswer := none }
        { cmdOk := fun _ _ => true, exists0 := fun _ => true,
          migNames := fun _ => ["20240101000000_initial_setup.sql"], confirmAll := true }
        "/w").1 := by
  have h1 := c7_amended
    { template := some "bare", architecture := some "nextjs-only",
      help := false, version := false, verbose := false, quiet := false,
      force := false, dryRun := false }
    (some "app")
    { nameAnswer := none, archAnswer := none, templateAnswer := none }
    { cmdOk := fun _ _ => true, exists0 := fun _ => true,
      migNames := fun _ => ["20240101000000_initial_setup.sql"], confirmAll := true }
    "/w" "app" "nextjs-only" "bare" rfl rfl (Or.inl ⟨rfl, by decide⟩) rfl
  have h2 := c7_amended
    { template := some "bare", architecture := some "nextjs-only",
      help := false, version := false, verbose := false, quiet := false,
      force := true, dryRun := false }
    (some "app")
    { nameAnswer := none, archAnswer := none, templateAnswer := none }
    { cmdOk := fun _ _ => true, exists0 := fun _ => true,
      migNames := fun _ => ["20240101000000_initial_setup.sql"], confirmAll := true }
    "/w" "app" "nextjs-only" "bare" rfl rfl (Or.inl ⟨rfl, by decide⟩) rfl
  exact ⟨h1.1 rfl,
    (h2.2.1 rfl rfl (Or.inl rfl) (Or.inr rfl) (Or.inl rfl) (Or.inl rfl)).1,
    h2.2.2⟩
